import Mathlib

/- Shallow embedding of the ConvGRU repository (convgru.py): a tensor model with
broadcasting, the convolution-provider contract used by the cells, the 1D and 2D
ConvGRU cells, and the sequence scan wrapper, together with theorems settling the
specification's claims. Machine reals are abstracted to an arbitrary arithmetic
carrier; sigmoid and tanh are parameters supplied by the external provider. -/

namespace ConvGRU

/-- A tensor: a shape (list of dimension sizes), a device tag, and the stored
values, read through a total indexing function (values at out-of-range indices
are irrelevant junk). -/
structure Tensor (α : Type) where
  shape : List Nat
  device : Nat
  data : List Nat → α

/-- Size of the first dimension, `t.size(0)` in the source. -/
def Tensor.size0 {α : Type} (t : Tensor α) : Nat := t.shape.headD 0

/-- Size of the last dimension, `t.size(-1)` in the source. -/
def Tensor.sizeLast {α : Type} (t : Tensor α) : Nat := t.shape.getLastD 0

/-- Size of the second-to-last dimension, `t.size(-2)` in the source. -/
def Tensor.sizeLast2 {α : Type} (t : Tensor α) : Nat := t.shape.dropLast.getLastD 0

/-- Number of channels: the size of dimension 1. -/
def Tensor.dim1 {α : Type} (t : Tensor α) : Nat := t.shape.getD 1 0

/-- A zero-filled tensor of a given shape on a given device (`torch.zeros`). -/
def Tensor.zeros {α : Type} [Zero α] (s : List Nat) (dev : Nat) : Tensor α :=
  ⟨s, dev, fun _ => 0⟩

/-- Elementwise application of a unary function (`torch.sigmoid`, `torch.tanh`). -/
def Tensor.map {α : Type} (f : α → α) (t : Tensor α) : Tensor α :=
  ⟨t.shape, t.device, fun idx => f (t.data idx)⟩

/-- Scalar-minus-tensor, `1 - z` in the source: pointwise subtraction from a
scalar, preserving shape and device. -/
def scalarSub {α : Type} [Sub α] (a : α) (t : Tensor α) : Tensor α :=
  ⟨t.shape, t.device, fun idx => a - t.data idx⟩

/-- Broadcast two dimension sizes, per the provider's broadcasting rule: equal
sizes stand, a size of 1 stretches to the other, anything else is an error. -/
def bcastDim (a b : Nat) : Option Nat :=
  if a = b then some a else if a = 1 then some b else if b = 1 then some a else none

/-- Broadcast two shapes given with their dimensions reversed (so that alignment
is from the trailing dimension); a missing dimension behaves as size 1. -/
def bcastRev : List Nat → List Nat → Option (List Nat)
  | [], ys => some ys
  | x :: xs, [] => some (x :: xs)
  | x :: xs, y :: ys =>
    match bcastDim x y, bcastRev xs ys with
    | some d, some rest => some (d :: rest)
    | _, _ => none

/-- Broadcast two shapes, aligning from the trailing dimension. -/
def broadcastShapes (s t : List Nat) : Option (List Nat) :=
  match bcastRev s.reverse t.reverse with
  | some r => some r.reverse
  | none => none

/-- Map an index of the broadcast result shape back to an index of a source
tensor: extra leading dimensions are dropped and stretched dimensions (source
size 1) read position 0. -/
def bcastIndex (srcShape idx : List Nat) : List Nat :=
  ((srcShape.zip (idx.drop (idx.length - srcShape.length))).map
    (fun p => if p.1 = 1 then 0 else p.2))

/-- Elementwise combination of two tensors with broadcasting (`+` and `*` on
tensors in the source); fails on a device mismatch or incompatible shapes. -/
def Tensor.ewise {α : Type} (f : α → α → α) (t u : Tensor α) : Option (Tensor α) :=
  if t.device = u.device then
    match broadcastShapes t.shape u.shape with
    | some s =>
      some ⟨s, t.device,
        fun idx => f (t.data (bcastIndex t.shape idx)) (u.data (bcastIndex u.shape idx))⟩
    | none => none
  else none

/-- Channel slice `t[:, lo:hi]` (any trailing spatial dimensions untouched):
keeps channels lo ≤ c < min hi channels, reindexing from lo. -/
def Tensor.sliceCh {α : Type} (t : Tensor α) (lo hi : Nat) : Tensor α :=
  { shape :=
      match t.shape with
      | b :: c :: rest => b :: (min hi c - lo) :: rest
      | s => s
    device := t.device
    data := fun idx =>
      match idx with
      | b :: c :: rest => t.data (b :: (lo + c) :: rest)
      | i => t.data i }

/- ----------------------------------------------------------------------------
The convolution provider contract (`nn.Conv1d` / `nn.Conv2d`): parameters and
the deterministic convolution with the standard output-size formula.
---------------------------------------------------------------------------- -/

/-- Parameters of a one-dimensional convolution: `nn.Conv1d`. -/
structure Conv1d (α : Type) where
  in_channels : Nat
  out_channels : Nat
  kernel_size : Nat
  stride : Nat
  padding : Nat
  weight : Tensor α
  bias : Tensor α

/-- Apply a 1D convolution (cross-correlation with zero padding) to a tensor of
shape [batch, in_channels, n]; fails on a channel or device mismatch, a zero
stride, or a padded input smaller than the kernel. -/
def Conv1d.apply {α : Type} [AddCommMonoid α] [Mul α] (c : Conv1d α) (t : Tensor α) :
    Option (Tensor α) :=
  match t.shape with
  | [b, cin, n] =>
    if cin = c.in_channels ∧ t.device = c.weight.device ∧ 0 < c.stride ∧
        c.kernel_size ≤ n + 2 * c.padding then
      some ⟨[b, c.out_channels, (n + 2 * c.padding - c.kernel_size) / c.stride + 1],
        t.device,
        fun idx =>
          match idx with
          | [bi, oc, x] =>
            c.bias.data [oc] +
              ∑ ic ∈ Finset.range c.in_channels, ∑ k ∈ Finset.range c.kernel_size,
                c.weight.data [oc, ic, k] *
                  (if c.padding ≤ x * c.stride + k ∧ x * c.stride + k < c.padding + n then
                    t.data [bi, ic, x * c.stride + k - c.padding]
                  else 0)
          | _ => 0⟩
    else none
  | _ => none

/-- The external initialization provider: each initializer fills a tensor of a
given shape with values drawn by the provider (`torch.nn.init`); `conv_default`
is the provider's own initialization applied when a convolution is allocated. -/
structure InitPolicy (α : Type) where
  orthogonal : List Nat → List Nat → α
  xavier_uniform : List Nat → List Nat → α
  conv_default : List Nat → List Nat → α

/- ----------------------------------------------------------------------------
ConvGRU1DCell
---------------------------------------------------------------------------- -/

/-- The one-dimensional ConvGRU cell: the two convolution parameter sets and the
hidden channel count, as stored by `ConvGRU1DCell.__init__`. -/
structure ConvGRU1DCell (α : Type) where
  conv_ih : Conv1d α
  conv_hh : Conv1d α
  h_channels : Nat

/-- `ConvGRU1DCell.reset_parameters`: orthogonal init of the hidden-to-hidden
weight, Xavier uniform init of the input-to-hidden weight, zero-filled biases;
all other fields untouched. State passing models the in-place mutation. -/
def ConvGRU1DCell.reset_parameters {α : Type} [Zero α] (P : InitPolicy α)
    (cell : ConvGRU1DCell α) : ConvGRU1DCell α :=
  { cell with
    conv_hh :=
      { cell.conv_hh with
        weight := ⟨cell.conv_hh.weight.shape, cell.conv_hh.weight.device,
          P.orthogonal cell.conv_hh.weight.shape⟩
        bias := Tensor.zeros cell.conv_hh.bias.shape cell.conv_hh.bias.device }
    conv_ih :=
      { cell.conv_ih with
        weight := ⟨cell.conv_ih.weight.shape, cell.conv_ih.weight.device,
          P.xavier_uniform cell.conv_ih.weight.shape⟩
        bias := Tensor.zeros cell.conv_ih.bias.shape cell.conv_ih.bias.device } }

/-- `ConvGRU1DCell.__init__`: allocates the input-to-hidden convolution with the
given kernel/stride/padding and the hidden-to-hidden convolution with unit
stride and padding `recurrent_kernel_size / 2`, both with `3 * hidden_channels`
output channels, then applies `reset_parameters`. `dev` is the ambient device
new parameters are allocated on. -/
def ConvGRU1DCell.build {α : Type} [Zero α] (P : InitPolicy α) (dev : Nat)
    (input_channels hidden_channels kernel_size : Nat)
    (stride padding recurrent_kernel_size : Nat) : ConvGRU1DCell α :=
  ConvGRU1DCell.reset_parameters P
    { conv_ih :=
        { in_channels := input_channels
          out_channels := hidden_channels * 3
          kernel_size := kernel_size
          stride := stride
          padding := padding
          weight := ⟨[hidden_channels * 3, input_channels, kernel_size], dev,
            P.conv_default [hidden_channels * 3, input_channels, kernel_size]⟩
          bias := ⟨[hidden_channels * 3], dev, P.conv_default [hidden_channels * 3]⟩ }
      conv_hh :=
        { in_channels := hidden_channels
          out_channels := hidden_channels * 3
          kernel_size := recurrent_kernel_size
          stride := 1
          padding := recurrent_kernel_size / 2
          weight := ⟨[hidden_channels * 3, hidden_channels, recurrent_kernel_size], dev,
            P.conv_default [hidden_channels * 3, hidden_channels, recurrent_kernel_size]⟩
          bias := ⟨[hidden_channels * 3], dev, P.conv_default [hidden_channels * 3]⟩ }
      h_channels := hidden_channels }

/-- The `output_size` computed at the top of `ConvGRU1DCell.forward`:
`int((input.size(-1) - kernel + 2*padding) / stride) + 1`, with Python's
truncation toward zero. -/
def conv1dOutputSize (n k p s : Nat) : Int :=
  ((n : Int) - (k : Int) + 2 * (p : Int)).tdiv (s : Int) + 1

/-- `ConvGRU1DCell.forward`: synthesize a zero hidden state when none is given,
run the two convolutions, slice the three gate blocks, and blend. `sg` and `th`
are the provider's sigmoid and tanh. Failures of the provider (shape, device,
size errors) propagate as `none`. -/
def ConvGRU1DCell.forward {α : Type} [AddCommMonoid α] [Mul α] [Sub α] [One α]
    (sg th : α → α) (cell : ConvGRU1DCell α) (input : Tensor α)
    (hx0 : Option (Tensor α)) : Option (Tensor α) :=
  let output_size : Int :=
    conv1dOutputSize input.sizeLast cell.conv_ih.kernel_size cell.conv_ih.padding
      cell.conv_ih.stride
  do
    let hx ←
      match hx0 with
      | none =>
        if 0 ≤ output_size then
          some (Tensor.zeros [input.size0, cell.h_channels, output_size.toNat]
            input.device)
        else none
      | some h => some h
    let ih_conv_output ← cell.conv_ih.apply input
    let hh_conv_output ← cell.conv_hh.apply hx
    let zsum ← Tensor.ewise (· + ·) (ih_conv_output.sliceCh 0 cell.h_channels)
      (hh_conv_output.sliceCh 0 cell.h_channels)
    let z := zsum.map sg
    let rsum ← Tensor.ewise (· + ·)
      (ih_conv_output.sliceCh cell.h_channels (2 * cell.h_channels))
      (hh_conv_output.sliceCh cell.h_channels (2 * cell.h_channels))
    let r := rsum.map sg
    let rh ← Tensor.ewise (· * ·) r
      (hh_conv_output.sliceCh (2 * cell.h_channels) hh_conv_output.dim1)
    let nsum ← Tensor.ewise (· + ·)
      (ih_conv_output.sliceCh (2 * cell.h_channels) ih_conv_output.dim1) rh
    let n := nsum.map th
    let zn ← Tensor.ewise (· * ·) (scalarSub 1 z) n
    let zh ← Tensor.ewise (· * ·) z hx
    Tensor.ewise (· + ·) zn zh

/- ----------------------------------------------------------------------------
ConvGRU2DCell
---------------------------------------------------------------------------- -/

/-- A size argument of the 2D constructor, `Union[int, tuple]` in the source:
either a plain integer or a per-axis pair. -/
inductive IntOrPair where
  | int : Nat → IntOrPair
  | pair : Nat → Nat → IntOrPair

/-- Normalization the provider's `nn.Conv2d` applies to a size argument: a plain
integer is replicated to both axes. -/
def IntOrPair.toPair : IntOrPair → Nat × Nat
  | .int n => (n, n)
  | .pair a b => (a, b)

/-- Python subscripting `v[i]` on a size argument: defined on a tuple for
`i < 2`, an error (TypeError) on a plain integer. -/
def IntOrPair.subscript : IntOrPair → Nat → Option Nat
  | .int _, _ => none
  | .pair a b, i => if i = 0 then some a else if i = 1 then some b else none

/-- Parameters of a two-dimensional convolution: `nn.Conv2d`. Sizes are stored
normalized, one per spatial axis. -/
structure Conv2d (α : Type) where
  in_channels : Nat
  out_channels : Nat
  kernel_size : Nat × Nat
  stride : Nat × Nat
  padding : Nat × Nat
  weight : Tensor α
  bias : Tensor α

/-- Apply a 2D convolution (cross-correlation with zero padding) to a tensor of
shape [batch, in_channels, h, w]; fails on a channel or device mismatch, a zero
stride, or a padded input smaller than the kernel on either axis. -/
def Conv2d.apply {α : Type} [AddCommMonoid α] [Mul α] (c : Conv2d α) (t : Tensor α) :
    Option (Tensor α) :=
  match t.shape with
  | [b, cin, h, w] =>
    if cin = c.in_channels ∧ t.device = c.weight.device ∧ 0 < c.stride.1 ∧
        0 < c.stride.2 ∧ c.kernel_size.1 ≤ h + 2 * c.padding.1 ∧
        c.kernel_size.2 ≤ w + 2 * c.padding.2 then
      some ⟨[b, c.out_channels,
          (h + 2 * c.padding.1 - c.kernel_size.1) / c.stride.1 + 1,
          (w + 2 * c.padding.2 - c.kernel_size.2) / c.stride.2 + 1],
        t.device,
        fun idx =>
          match idx with
          | [bi, oc, y, x] =>
            c.bias.data [oc] +
              ∑ ic ∈ Finset.range c.in_channels,
                ∑ ky ∈ Finset.range c.kernel_size.1,
                  ∑ kx ∈ Finset.range c.kernel_size.2,
                    c.weight.data [oc, ic, ky, kx] *
                      (if c.padding.1 ≤ y * c.stride.1 + ky ∧
                          y * c.stride.1 + ky < c.padding.1 + h ∧
                          c.padding.2 ≤ x * c.stride.2 + kx ∧
                          x * c.stride.2 + kx < c.padding.2 + w then
                        t.data [bi, ic, y * c.stride.1 + ky - c.padding.1,
                          x * c.stride.2 + kx - c.padding.2]
                      else 0)
          | _ => 0⟩
    else none
  | _ => none

/-- The two-dimensional ConvGRU cell: the two convolution parameter sets and the
hidden channel count, as stored by `ConvGRU2DCell.__init__`. -/
structure ConvGRU2DCell (α : Type) where
  conv_ih : Conv2d α
  conv_hh : Conv2d α
  h_channels : Nat

/-- `ConvGRU2DCell.reset_parameters`: orthogonal init of the hidden-to-hidden
weight, Xavier uniform init of the input-to-hidden weight, zero-filled biases;
all other fields untouched. -/
def ConvGRU2DCell.reset_parameters {α : Type} [Zero α] (P : InitPolicy α)
    (cell : ConvGRU2DCell α) : ConvGRU2DCell α :=
  { cell with
    conv_hh :=
      { cell.conv_hh with
        weight := ⟨cell.conv_hh.weight.shape, cell.conv_hh.weight.device,
          P.orthogonal cell.conv_hh.weight.shape⟩
        bias := Tensor.zeros cell.conv_hh.bias.shape cell.conv_hh.bias.device }
    conv_ih :=
      { cell.conv_ih with
        weight := ⟨cell.conv_ih.weight.shape, cell.conv_ih.weight.device,
          P.xavier_uniform cell.conv_ih.weight.shape⟩
        bias := Tensor.zeros cell.conv_ih.bias.shape cell.conv_ih.bias.device } }

/-- `ConvGRU2DCell.__init__`: first computes
`hh_padding = (recurrent_kernel_size[0] // 2, recurrent_kernel_size[1] // 2)`
by subscripting the argument (an error when it is a plain integer, hence the
`Option`), then allocates the two convolutions and applies `reset_parameters`. -/
def ConvGRU2DCell.build {α : Type} [Zero α] (P : InitPolicy α) (dev : Nat)
    (input_channels hidden_channels : Nat)
    (kernel_size stride padding recurrent_kernel_size : IntOrPair) :
    Option (ConvGRU2DCell α) := do
  let r0 ← recurrent_kernel_size.subscript 0
  let r1 ← recurrent_kernel_size.subscript 1
  let hh_padding : Nat × Nat := (r0 / 2, r1 / 2)
  let k := kernel_size.toPair
  let rk := recurrent_kernel_size.toPair
  pure (ConvGRU2DCell.reset_parameters P
    { conv_ih :=
        { in_channels := input_channels
          out_channels := hidden_channels * 3
          kernel_size := k
          stride := stride.toPair
          padding := padding.toPair
          weight := ⟨[hidden_channels * 3, input_channels, k.1, k.2], dev,
            P.conv_default [hidden_channels * 3, input_channels, k.1, k.2]⟩
          bias := ⟨[hidden_channels * 3], dev, P.conv_default [hidden_channels * 3]⟩ }
      conv_hh :=
        { in_channels := hidden_channels
          out_channels := hidden_channels * 3
          kernel_size := rk
          stride := (1, 1)
          padding := hh_padding
          weight := ⟨[hidden_channels * 3, hidden_channels, rk.1, rk.2], dev,
            P.conv_default [hidden_channels * 3, hidden_channels, rk.1, rk.2]⟩
          bias := ⟨[hidden_channels * 3], dev, P.conv_default [hidden_channels * 3]⟩ }
      h_channels := hidden_channels })

/-- `ConvGRU2DCell.forward`: the same gated update as the 1D cell, with the
output size computed per spatial axis. -/
def ConvGRU2DCell.forward {α : Type} [AddCommMonoid α] [Mul α] [Sub α] [One α]
    (sg th : α → α) (cell : ConvGRU2DCell α) (input : Tensor α)
    (hx0 : Option (Tensor α)) : Option (Tensor α) :=
  let o1 : Int :=
    conv1dOutputSize input.sizeLast2 cell.conv_ih.kernel_size.1 cell.conv_ih.padding.1
      cell.conv_ih.stride.1
  let o2 : Int :=
    conv1dOutputSize input.sizeLast cell.conv_ih.kernel_size.2 cell.conv_ih.padding.2
      cell.conv_ih.stride.2
  do
    let hx ←
      match hx0 with
      | none =>
        if 0 ≤ o1 ∧ 0 ≤ o2 then
          some (Tensor.zeros [input.size0, cell.h_channels, o1.toNat, o2.toNat]
            input.device)
        else none
      | some h => some h
    let ih_conv_output ← cell.conv_ih.apply input
    let hh_conv_output ← cell.conv_hh.apply hx
    let zsum ← Tensor.ewise (· + ·) (ih_conv_output.sliceCh 0 cell.h_channels)
      (hh_conv_output.sliceCh 0 cell.h_channels)
    let z := zsum.map sg
    let rsum ← Tensor.ewise (· + ·)
      (ih_conv_output.sliceCh cell.h_channels (2 * cell.h_channels))
      (hh_conv_output.sliceCh cell.h_channels (2 * cell.h_channels))
    let r := rsum.map sg
    let rh ← Tensor.ewise (· * ·) r
      (hh_conv_output.sliceCh (2 * cell.h_channels) hh_conv_output.dim1)
    let nsum ← Tensor.ewise (· + ·)
      (ih_conv_output.sliceCh (2 * cell.h_channels) ih_conv_output.dim1) rh
    let n := nsum.map th
    let zn ← Tensor.ewise (· * ·) (scalarSub 1 z) n
    let zh ← Tensor.ewise (· * ·) z hx
    Tensor.ewise (· + ·) zn zh

/- ----------------------------------------------------------------------------
The Sequence scan wrapper.
---------------------------------------------------------------------------- -/

/-- Modelled from the spec: the repository's ConvGRU Sequence component (`run`)
is not present under src/; per the spec it scans one Cell over the time axis,
feeding each step the previous step's hidden state, accumulating every next
hidden state, and aborting on the first failing step. This is the accumulator:
the list of hidden states produced by stepping through the frames in order. -/
def scanCell {α : Type} [AddCommMonoid α] [Mul α] [Sub α] [One α]
    (sg th : α → α) (cell : ConvGRU1DCell α) (hx : Option (Tensor α)) :
    List (Tensor α) → Option (List (Tensor α))
  | [] => some []
  | f :: rest => do
    let h ← cell.forward sg th f hx
    let tail ← scanCell sg th cell (some h) rest
    pure (h :: tail)

/-- Modelled from the spec: `ConvGRUSequence.run(sequence, initial_hidden)`
returns the accumulated output sequence together with its last element as the
final hidden state; it fails when any step fails (and on an empty sequence,
where no final hidden state exists). -/
def ConvGRUSequence.run {α : Type} [AddCommMonoid α] [Mul α] [Sub α] [One α]
    (sg th : α → α) (cell : ConvGRU1DCell α) (seq : List (Tensor α))
    (init0 : Option (Tensor α)) : Option (List (Tensor α) × Tensor α) := do
  let outs ← scanCell sg th cell init0 seq
  match outs.getLast? with
  | some fin => pure (outs, fin)
  | none => none

/-- Manual iterative stepping of the Cell, the reference the Sequence wrapper is
compared against: the hidden state after consuming a nonempty list of frames one
`forward` call at a time, each step fed the previous step's output. -/
def manualSteps {α : Type} [AddCommMonoid α] [Mul α] [Sub α] [One α]
    (sg th : α → α) (cell : ConvGRU1DCell α) (hx : Option (Tensor α)) :
    List (Tensor α) → Option (Tensor α)
  | [] => none
  | [f] => cell.forward sg th f hx
  | f :: g :: rest =>
    match cell.forward sg th f hx with
    | none => none
    | some h => manualSteps sg th cell (some h) (g :: rest)

/- ----------------------------------------------------------------------------
Concrete instances over the integers, used to evaluate the model on explicit
inputs (the provider nonlinearities are instantiated by concrete functions).
---------------------------------------------------------------------------- -/

/-- A concrete initialization provider over the integers: orthogonal and Xavier
initialization fill with 1, the provider default fills with 0. -/
def polOne : InitPolicy Int := ⟨fun _ _ => 1, fun _ _ => 1, fun _ _ => 0⟩

/-- A 1D cell: 1 input channel, 1 hidden channel, kernel 1, stride 1, padding 0,
recurrent kernel 1, on device 0. -/
def cell1A : ConvGRU1DCell Int := ConvGRU1DCell.build polOne 0 1 1 1 1 0 1

/-- A 1D cell with recurrent kernel 3. -/
def cell1B : ConvGRU1DCell Int := ConvGRU1DCell.build polOne 0 1 1 1 1 0 3

/-- A 1D cell with an even recurrent kernel size (4), accepted unvalidated. -/
def cell1E : ConvGRU1DCell Int := ConvGRU1DCell.build polOne 0 1 1 1 1 0 4

def input1A : Tensor Int := ⟨[1, 1, 2], 0, fun idx => if idx = [0, 0, 1] then 3 else 2⟩

def hx1A : Tensor Int := ⟨[1, 1, 2], 0, fun idx => if idx = [0, 0, 1] then 7 else 5⟩

/-- A hidden state of spatial size 1: mismatched but broadcast-compatible. -/
def hx1B : Tensor Int := ⟨[1, 1, 1], 0, fun _ => 5⟩

/-- A hidden state of spatial size 3: mismatched and broadcast-incompatible. -/
def hx1C : Tensor Int := ⟨[1, 1, 3], 0, fun _ => 5⟩

def ih1A : Tensor Int := (cell1A.conv_ih.apply input1A).getD (Tensor.zeros [] 0)

def hh1A : Tensor Int := (cell1A.conv_hh.apply hx1A).getD (Tensor.zeros [] 0)

def convDummy2 : Conv2d Int :=
  ⟨0, 0, (0, 0), (0, 0), (0, 0), ⟨[], 0, fun _ => 0⟩, ⟨[], 0, fun _ => 0⟩⟩

def cellDummy2 : ConvGRU2DCell Int := ⟨convDummy2, convDummy2, 0⟩

/-- A 2D cell: 1 input channel, 1 hidden channel, kernel (1,1), stride (1,1),
padding (0,0), recurrent kernel (1,1), on device 0. -/
def cell2A : ConvGRU2DCell Int :=
  (ConvGRU2DCell.build polOne 0 1 1 (IntOrPair.pair 1 1) (IntOrPair.pair 1 1)
    (IntOrPair.pair 0 0) (IntOrPair.pair 1 1)).getD cellDummy2

/-- A 2D cell with recurrent kernel (3,3). -/
def cell2B : ConvGRU2DCell Int :=
  (ConvGRU2DCell.build polOne 0 1 1 (IntOrPair.pair 1 1) (IntOrPair.pair 1 1)
    (IntOrPair.pair 0 0) (IntOrPair.pair 3 3)).getD cellDummy2

def input2A : Tensor Int := ⟨[1, 1, 2, 2], 0, fun idx => if idx = [0, 0, 0, 0] then 2 else 3⟩

def hx2A : Tensor Int := ⟨[1, 1, 2, 2], 0, fun idx => if idx = [0, 0, 1, 1] then 7 else 5⟩

/-- A 2D hidden state of spatial size (1,1): broadcast-compatible mismatch. -/
def hx2B : Tensor Int := ⟨[1, 1, 1, 1], 0, fun _ => 4⟩

/-- A 2D hidden state of spatial size (2,3): broadcast-incompatible mismatch. -/
def hx2C : Tensor Int := ⟨[1, 1, 2, 3], 0, fun _ => 4⟩

def ih2A : Tensor Int := (cell2A.conv_ih.apply input2A).getD (Tensor.zeros [] 0)

def hh2A : Tensor Int := (cell2A.conv_hh.apply hx2A).getD (Tensor.zeros [] 0)

/- ----------------------------------------------------------------------------
Helper lemmas about the tensor model.
---------------------------------------------------------------------------- -/

theorem bcastDim_self (a : Nat) : bcastDim a a = some a := by
  simp [bcastDim]

theorem bcastRev_self (l : List Nat) : bcastRev l l = some l := by
  induction l with
  | nil => rfl
  | cons x xs ih => simp [bcastRev, bcastDim_self, ih]

theorem broadcastShapes_self (s : List Nat) : broadcastShapes s s = some s := by
  simp [broadcastShapes, bcastRev_self]

/-- Elementwise combination of two same-shape, same-device tensors succeeds. -/
theorem Tensor.ewise_sameS {α : Type} (f : α → α → α) (t u : Tensor α)
    (s : List Nat) (d : Nat)
    (hts : t.shape = s) (hus : u.shape = s) (htd : t.device = d) (hud : u.device = d) :
    Tensor.ewise f t u = some ⟨s, d,
      fun idx => f (t.data (bcastIndex s idx)) (u.data (bcastIndex s idx))⟩ := by
  subst hts htd
  simp [Tensor.ewise, hus, hud, broadcastShapes_self]

/-- On an in-range rank-3 index, broadcasting from the same shape is identity. -/
theorem bcastIndex3 (a b c i j k : Nat) (hi : i < a) (hj : j < b) (hk : k < c) :
    bcastIndex [a, b, c] [i, j, k] = [i, j, k] := by
  simp only [bcastIndex, List.length_cons, List.length_nil]
  norm_num [List.zip, List.zipWith]
  refine ⟨?_, ?_, ?_⟩ <;> intro h <;> omega

theorem Tensor.sliceCh_shape3 {α : Type} (t : Tensor α) (b c n lo hi : Nat)
    (h : t.shape = [b, c, n]) : (t.sliceCh lo hi).shape = [b, min hi c - lo, n] := by
  simp [Tensor.sliceCh, h]

theorem Tensor.sliceCh_data3 {α : Type} (t : Tensor α) (lo hi bi ci xi : Nat) :
    (t.sliceCh lo hi).data [bi, ci, xi] = t.data [bi, lo + ci, xi] := rfl

theorem Tensor.sliceCh_device {α : Type} (t : Tensor α) (lo hi : Nat) :
    (t.sliceCh lo hi).device = t.device := rfl

theorem Tensor.dim1_eq3 {α : Type} (t : Tensor α) (b c n : Nat)
    (h : t.shape = [b, c, n]) : t.dim1 = c := by
  simp [Tensor.dim1, h]

/-- Success and output shape of a well-posed 1D convolution. -/
theorem conv1d_apply_spec {α : Type} [AddCommMonoid α] [Mul α]
    (c : Conv1d α) (t : Tensor α) (b n : Nat)
    (hsh : t.shape = [b, c.in_channels, n]) (hdev : t.device = c.weight.device)
    (hstr : 0 < c.stride) (hk : c.kernel_size ≤ n + 2 * c.padding) :
    ∃ out, c.apply t = some out ∧
      out.shape = [b, c.out_channels, (n + 2 * c.padding - c.kernel_size) / c.stride + 1] ∧
      out.device = t.device := by
  simp only [Conv1d.apply, hsh]
  rw [if_pos ⟨True.intro, hdev, hstr, hk⟩]
  exact ⟨_, rfl, rfl, rfl⟩

theorem Tensor.map_shape {α : Type} (f : α → α) (t : Tensor α) :
    (t.map f).shape = t.shape := rfl

theorem Tensor.map_device {α : Type} (f : α → α) (t : Tensor α) :
    (t.map f).device = t.device := rfl

theorem Tensor.map_data {α : Type} (f : α → α) (t : Tensor α) (idx : List Nat) :
    (t.map f).data idx = f (t.data idx) := rfl

theorem scalarSub_shape {α : Type} [Sub α] (a : α) (t : Tensor α) :
    (scalarSub a t).shape = t.shape := rfl

theorem scalarSub_device {α : Type} [Sub α] (a : α) (t : Tensor α) :
    (scalarSub a t).device = t.device := rfl

theorem scalarSub_data {α : Type} [Sub α] (a : α) (t : Tensor α) (idx : List Nat) :
    (scalarSub a t).data idx = a - t.data idx := rfl

/-- Success, shape, device and pointwise values of an elementwise combination of
two tensors of one shape on one device. -/
theorem Tensor.ewise_spec {α : Type} (f : α → α → α) (t u : Tensor α)
    (s : List Nat) (d : Nat)
    (hts : t.shape = s) (hus : u.shape = s) (htd : t.device = d) (hud : u.device = d) :
    ∃ v, Tensor.ewise f t u = some v ∧ v.shape = s ∧ v.device = d ∧
      ∀ idx, v.data idx = f (t.data (bcastIndex s idx)) (u.data (bcastIndex s idx)) := by
  refine ⟨⟨s, d, fun idx => f (t.data (bcastIndex s idx)) (u.data (bcastIndex s idx))⟩,
    ?_, rfl, rfl, fun idx => rfl⟩
  simp [Tensor.ewise, hts, hus, htd, hud, broadcastShapes_self]

theorem forward1d_gate_spec {α : Type} [AddCommMonoid α] [Mul α] [Sub α] [One α]
    (sg th : α → α) (cell : ConvGRU1DCell α) (input hx ih hh : Tensor α)
    (b np : Nat)
    (hih : cell.conv_ih.apply input = some ih)
    (hhh : cell.conv_hh.apply hx = some hh)
    (hihs : ih.shape = [b, 3 * cell.h_channels, np])
    (hhhs : hh.shape = [b, 3 * cell.h_channels, np])
    (hhxs : hx.shape = [b, cell.h_channels, np])
    (hhd : hh.device = ih.device) (hxd : hx.device = ih.device) :
    ∃ out, cell.forward sg th input (some hx) = some out ∧
      out.shape = [b, cell.h_channels, np] ∧ out.device = ih.device ∧
      ∀ bi ci xi, bi < b → ci < cell.h_channels → xi < np →
        out.data [bi, ci, xi] =
          (1 - sg (ih.data [bi, ci, xi] + hh.data [bi, ci, xi])) *
            th (ih.data [bi, 2 * cell.h_channels + ci, xi] +
              sg (ih.data [bi, cell.h_channels + ci, xi] +
                  hh.data [bi, cell.h_channels + ci, xi]) *
                hh.data [bi, 2 * cell.h_channels + ci, xi]) +
          sg (ih.data [bi, ci, xi] + hh.data [bi, ci, xi]) * hx.data [bi, ci, xi] := by
  have e1 : min cell.h_channels (3 * cell.h_channels) - 0 = cell.h_channels := by omega
  have e2 : min (2 * cell.h_channels) (3 * cell.h_channels) - cell.h_channels =
      cell.h_channels := by omega
  have e3 : min (3 * cell.h_channels) (3 * cell.h_channels) - 2 * cell.h_channels =
      cell.h_channels := by omega
  have hihd1 : ih.dim1 = 3 * cell.h_channels := Tensor.dim1_eq3 ih _ _ _ hihs
  have hhhd1 : hh.dim1 = 3 * cell.h_channels := Tensor.dim1_eq3 hh _ _ _ hhhs
  have sih0 : (ih.sliceCh 0 cell.h_channels).shape = [b, cell.h_channels, np] := by
    rw [Tensor.sliceCh_shape3 ih b (3 * cell.h_channels) np 0 cell.h_channels hihs, e1]
  have shh0 : (hh.sliceCh 0 cell.h_channels).shape = [b, cell.h_channels, np] := by
    rw [Tensor.sliceCh_shape3 hh b (3 * cell.h_channels) np 0 cell.h_channels hhhs, e1]
  have sih1 : (ih.sliceCh cell.h_channels (2 * cell.h_channels)).shape =
      [b, cell.h_channels, np] := by
    rw [Tensor.sliceCh_shape3 ih b (3 * cell.h_channels) np cell.h_channels
      (2 * cell.h_channels) hihs, e2]
  have shh1 : (hh.sliceCh cell.h_channels (2 * cell.h_channels)).shape =
      [b, cell.h_channels, np] := by
    rw [Tensor.sliceCh_shape3 hh b (3 * cell.h_channels) np cell.h_channels
      (2 * cell.h_channels) hhhs, e2]
  have sih2 : (ih.sliceCh (2 * cell.h_channels) (3 * cell.h_channels)).shape =
      [b, cell.h_channels, np] := by
    rw [Tensor.sliceCh_shape3 ih b (3 * cell.h_channels) np (2 * cell.h_channels)
      (3 * cell.h_channels) hihs, e3]
  have shh2 : (hh.sliceCh (2 * cell.h_channels) (3 * cell.h_channels)).shape =
      [b, cell.h_channels, np] := by
    rw [Tensor.sliceCh_shape3 hh b (3 * cell.h_channels) np (2 * cell.h_channels)
      (3 * cell.h_channels) hhhs, e3]
  obtain ⟨zsum, hz, hzs, hzd, hzv⟩ := Tensor.ewise_spec (· + ·)
    (ih.sliceCh 0 cell.h_channels) (hh.sliceCh 0 cell.h_channels)
    [b, cell.h_channels, np] ih.device sih0 shh0 rfl hhd
  obtain ⟨rsum, hr, hrs, hrd, hrv⟩ := Tensor.ewise_spec (· + ·)
    (ih.sliceCh cell.h_channels (2 * cell.h_channels))
    (hh.sliceCh cell.h_channels (2 * cell.h_channels))
    [b, cell.h_channels, np] ih.device sih1 shh1 rfl hhd
  obtain ⟨rh, hrh, hrhs, hrhd, hrhv⟩ := Tensor.ewise_spec (· * ·)
    (Tensor.map sg rsum) (hh.sliceCh (2 * cell.h_channels) (3 * cell.h_channels))
    [b, cell.h_channels, np] ih.device (by rw [Tensor.map_shape, hrs]) shh2
    (by rw [Tensor.map_device, hrd]) hhd
  obtain ⟨nsum, hn, hns, hnd, hnv⟩ := Tensor.ewise_spec (· + ·)
    (ih.sliceCh (2 * cell.h_channels) (3 * cell.h_channels)) rh
    [b, cell.h_channels, np] ih.device sih2 hrhs rfl hrhd
  obtain ⟨zn, hzn, hzns, hznd, hznv⟩ := Tensor.ewise_spec (· * ·)
    (scalarSub 1 (Tensor.map sg zsum)) (Tensor.map th nsum)
    [b, cell.h_channels, np] ih.device
    (by rw [scalarSub_shape, Tensor.map_shape, hzs])
    (by rw [Tensor.map_shape, hns])
    (by rw [scalarSub_device, Tensor.map_device, hzd])
    (by rw [Tensor.map_device, hnd])
  obtain ⟨zh, hzh, hzhs, hzhd, hzhv⟩ := Tensor.ewise_spec (· * ·)
    (Tensor.map sg zsum) hx [b, cell.h_channels, np] ih.device
    (by rw [Tensor.map_shape, hzs]) hhxs (by rw [Tensor.map_device, hzd]) hxd
  obtain ⟨res, hres, hress, hresd, hresv⟩ := Tensor.ewise_spec (· + ·)
    zn zh [b, cell.h_channels, np] ih.device hzns hzhs hznd hzhd
  refine ⟨res, ?_, hress, hresd, ?_⟩
  · simp only [ConvGRU1DCell.forward, hih, hhh, hihd1, hhhd1, Option.bind_eq_bind,
      Option.some_bind]
    rw [hz, Option.some_bind, hr, Option.some_bind, hrh, Option.some_bind,
      hn, Option.some_bind, hzn, Option.some_bind, hzh, Option.some_bind, hres]
  · intro bi ci xi hbi hci hxi
    have hidx : bcastIndex [b, cell.h_channels, np] [bi, ci, xi] = [bi, ci, xi] :=
      bcastIndex3 _ _ _ _ _ _ hbi hci hxi
    simp only [hresv, hidx, hznv, hzhv, hnv, hrhv, hrv, hzv, Tensor.map_data,
      scalarSub_data, Tensor.sliceCh_data3, Nat.zero_add]

theorem Tensor.zeros_shape {α : Type} [Zero α] (s : List Nat) (dev : Nat) :
    (Tensor.zeros (α := α) s dev).shape = s := rfl

theorem Tensor.zeros_device {α : Type} [Zero α] (s : List Nat) (dev : Nat) :
    (Tensor.zeros (α := α) s dev).device = dev := rfl

theorem Tensor.size0_eq {α : Type} (t : Tensor α) (b : Nat) (rest : List Nat)
    (h : t.shape = b :: rest) : t.size0 = b := by
  simp [Tensor.size0, h]

theorem Tensor.sizeLast_eq3 {α : Type} (t : Tensor α) (b c n : Nat)
    (h : t.shape = [b, c, n]) : t.sizeLast = n := by
  simp [Tensor.sizeLast, h]

theorem conv1dOutputSize_eq_of_le (n k p s : Nat) (hk : k ≤ n + 2 * p) (hs : 0 < s) :
    conv1dOutputSize n k p s = (((n + 2 * p - k) / s + 1 : Nat) : Int) := by
  unfold conv1dOutputSize
  have h1 : (n : Int) - (k : Int) + 2 * (p : Int) = ((n + 2 * p - k : Nat) : Int) := by
    push_cast [hk]
    omega
  rw [h1]
  have h2 : ((n + 2 * p - k : Nat) : Int).tdiv ((s : Nat) : Int) =
      (((n + 2 * p - k) / s : Nat) : Int) := rfl
  rw [h2]
  push_cast
  ring

theorem conv1dOutputSize_nonneg (n k p s : Nat) (hk : k ≤ n + 2 * p) (hs : 0 < s) :
    0 ≤ conv1dOutputSize n k p s := by
  rw [conv1dOutputSize_eq_of_le n k p s hk hs]
  positivity

theorem conv1dOutputSize_toNat (n k p s : Nat) (hk : k ≤ n + 2 * p) (hs : 0 < s) :
    (conv1dOutputSize n k p s).toNat = (n + 2 * p - k) / s + 1 := by
  rw [conv1dOutputSize_eq_of_le n k p s hk hs]
  exact Int.toNat_ofNat _

/-- With no hidden state supplied, `forward` proceeds exactly as if the zero
tensor of the computed shape on the input's device had been supplied. -/
theorem forward1d_none_eq {α : Type} [AddCommMonoid α] [Mul α] [Sub α] [One α]
    (sg th : α → α) (cell : ConvGRU1DCell α) (input : Tensor α)
    (hpos : 0 ≤ conv1dOutputSize input.sizeLast cell.conv_ih.kernel_size
      cell.conv_ih.padding cell.conv_ih.stride) :
    cell.forward sg th input none =
      cell.forward sg th input (some (Tensor.zeros
        [input.size0, cell.h_channels,
          (conv1dOutputSize input.sizeLast cell.conv_ih.kernel_size
            cell.conv_ih.padding cell.conv_ih.stride).toNat] input.device)) := by
  simp only [ConvGRU1DCell.forward]
  rw [if_pos hpos]

theorem odd_same_padding (m rk : Nat) (hodd : rk % 2 = 1) (hm : 1 ≤ m) :
    (m + 2 * (rk / 2) - rk) / 1 + 1 = m := by omega

/-- A unit-stride convolution with padding `kernel / 2` and odd kernel preserves
the spatial size. -/
theorem conv1d_same_spec {α : Type} [AddCommMonoid α] [Mul α]
    (c : Conv1d α) (t : Tensor α) (b m : Nat)
    (hsh : t.shape = [b, c.in_channels, m]) (hdev : t.device = c.weight.device)
    (hstr : c.stride = 1) (hpad : c.padding = c.kernel_size / 2)
    (hodd : c.kernel_size % 2 = 1) (hm : 1 ≤ m) :
    ∃ out, c.apply t = some out ∧ out.shape = [b, c.out_channels, m] ∧
      out.device = t.device := by
  obtain ⟨out, h1, h2, h3⟩ := conv1d_apply_spec c t b m hsh hdev (by omega)
    (by rw [hpad]; omega)
  refine ⟨out, h1, ?_, h3⟩
  rw [h2, hstr, hpad, odd_same_padding m c.kernel_size hodd hm]

theorem build1_ih_in {α : Type} [Zero α] (P : InitPolicy α) (dev ic hc k s p rk : Nat) :
    (ConvGRU1DCell.build P dev ic hc k s p rk).conv_ih.in_channels = ic := rfl

theorem build1_ih_out {α : Type} [Zero α] (P : InitPolicy α) (dev ic hc k s p rk : Nat) :
    (ConvGRU1DCell.build P dev ic hc k s p rk).conv_ih.out_channels = hc * 3 := rfl

theorem build1_ih_kernel {α : Type} [Zero α] (P : InitPolicy α) (dev ic hc k s p rk : Nat) :
    (ConvGRU1DCell.build P dev ic hc k s p rk).conv_ih.kernel_size = k := rfl

theorem build1_ih_stride {α : Type} [Zero α] (P : InitPolicy α) (dev ic hc k s p rk : Nat) :
    (ConvGRU1DCell.build P dev ic hc k s p rk).conv_ih.stride = s := rfl

theorem build1_ih_padding {α : Type} [Zero α] (P : InitPolicy α) (dev ic hc k s p rk : Nat) :
    (ConvGRU1DCell.build P dev ic hc k s p rk).conv_ih.padding = p := rfl

theorem build1_ih_wdev {α : Type} [Zero α] (P : InitPolicy α) (dev ic hc k s p rk : Nat) :
    (ConvGRU1DCell.build P dev ic hc k s p rk).conv_ih.weight.device = dev := rfl

theorem build1_hh_in {α : Type} [Zero α] (P : InitPolicy α) (dev ic hc k s p rk : Nat) :
    (ConvGRU1DCell.build P dev ic hc k s p rk).conv_hh.in_channels = hc := rfl

theorem build1_hh_out {α : Type} [Zero α] (P : InitPolicy α) (dev ic hc k s p rk : Nat) :
    (ConvGRU1DCell.build P dev ic hc k s p rk).conv_hh.out_channels = hc * 3 := rfl

theorem build1_hh_kernel {α : Type} [Zero α] (P : InitPolicy α) (dev ic hc k s p rk : Nat) :
    (ConvGRU1DCell.build P dev ic hc k s p rk).conv_hh.kernel_size = rk := rfl

theorem build1_hh_stride {α : Type} [Zero α] (P : InitPolicy α) (dev ic hc k s p rk : Nat) :
    (ConvGRU1DCell.build P dev ic hc k s p rk).conv_hh.stride = 1 := rfl

theorem build1_hh_padding {α : Type} [Zero α] (P : InitPolicy α) (dev ic hc k s p rk : Nat) :
    (ConvGRU1DCell.build P dev ic hc k s p rk).conv_hh.padding = rk / 2 := rfl

theorem build1_hh_wdev {α : Type} [Zero α] (P : InitPolicy α) (dev ic hc k s p rk : Nat) :
    (ConvGRU1DCell.build P dev ic hc k s p rk).conv_hh.weight.device = dev := rfl

theorem build1_h_channels {α : Type} [Zero α] (P : InitPolicy α) (dev ic hc k s p rk : Nat) :
    (ConvGRU1DCell.build P dev ic hc k s p rk).h_channels = hc := rfl

/-- Full success spec of the 1D cell built by the constructor, on a supplied
hidden state of the matching shape. -/
theorem forward1d_build_some {α : Type} [AddCommMonoid α] [Mul α] [Sub α] [One α]
    (sg th : α → α) (P : InitPolicy α) (dev ic hc k s p rk b n : Nat)
    (input hxT : Tensor α)
    (hs : 0 < s) (hodd : rk % 2 = 1)
    (hsh : input.shape = [b, ic, n]) (hdev : input.device = dev)
    (hk : k ≤ n + 2 * p)
    (hxs : hxT.shape = [b, hc, (n + 2 * p - k) / s + 1])
    (hxd : hxT.device = dev) :
    ∃ out, (ConvGRU1DCell.build P dev ic hc k s p rk).forward sg th input
        (some hxT) = some out ∧
      out.shape = [b, hc, (n + 2 * p - k) / s + 1] ∧ out.device = input.device := by
  obtain ⟨ih, hih, hihs, hihd⟩ :=
    conv1d_apply_spec (ConvGRU1DCell.build P dev ic hc k s p rk).conv_ih
      input b n (by rw [build1_ih_in]; exact hsh) (by rw [build1_ih_wdev]; exact hdev)
      (by rw [build1_ih_stride]; exact hs) (by rw [build1_ih_kernel, build1_ih_padding]; exact hk)
  obtain ⟨hh, hhh, hhhs, hhhd⟩ :=
    conv1d_same_spec (ConvGRU1DCell.build P dev ic hc k s p rk).conv_hh
      hxT b ((n + 2 * p - k) / s + 1) (by rw [build1_hh_in]; exact hxs)
      (by rw [build1_hh_wdev]; exact hxd) (build1_hh_stride P dev ic hc k s p rk)
      (by rw [build1_hh_padding, build1_hh_kernel])
      (by rw [build1_hh_kernel]; exact hodd)
      (Nat.le_add_left 1 _)
  obtain ⟨out, hfwd, hos, hod, hov⟩ :=
    forward1d_gate_spec sg th (ConvGRU1DCell.build P dev ic hc k s p rk)
      input hxT ih hh b ((n + 2 * p - k) / s + 1)
      hih hhh
      (by rw [hihs, build1_ih_out, build1_ih_padding, build1_ih_kernel,
          build1_ih_stride, build1_h_channels, Nat.mul_comm hc 3])
      (by rw [hhhs, build1_hh_out, build1_h_channels, Nat.mul_comm hc 3])
      (by rw [hxs, build1_h_channels])
      (by rw [hhhd, hxd, hihd, hdev])
      (by rw [hxd, hihd, hdev])
  refine ⟨out, hfwd, ?_, by rw [hod, hihd]⟩
  rw [hos, build1_h_channels]

/-- Full success spec of the 1D cell built by the constructor when no hidden
state is supplied: the lazily synthesized zero hidden state is used. -/
theorem forward1d_build_none {α : Type} [AddCommMonoid α] [Mul α] [Sub α] [One α]
    (sg th : α → α) (P : InitPolicy α) (dev ic hc k s p rk b n : Nat)
    (input : Tensor α)
    (hs : 0 < s) (hodd : rk % 2 = 1)
    (hsh : input.shape = [b, ic, n]) (hdev : input.device = dev)
    (hk : k ≤ n + 2 * p) :
    ∃ out, (ConvGRU1DCell.build P dev ic hc k s p rk).forward sg th input none =
        some out ∧
      out.shape = [b, hc, (n + 2 * p - k) / s + 1] ∧ out.device = input.device := by
  have hlast : input.sizeLast = n := Tensor.sizeLast_eq3 input b ic n hsh
  have hz : input.size0 = b := Tensor.size0_eq input b [ic, n] hsh
  rw [forward1d_none_eq sg th (ConvGRU1DCell.build P dev ic hc k s p rk) input
    (by rw [hlast, build1_ih_kernel, build1_ih_padding, build1_ih_stride]
        exact conv1dOutputSize_nonneg n k p s hk hs)]
  exact forward1d_build_some sg th P dev ic hc k s p rk b n input _ hs hodd hsh hdev hk
    (by rw [Tensor.zeros_shape, hz, build1_h_channels, hlast, build1_ih_kernel,
          build1_ih_padding, build1_ih_stride, conv1dOutputSize_toNat n k p s hk hs])
    (by rw [Tensor.zeros_device, hdev])

theorem bcastDim_none (a b : Nat) (h1 : a ≠ b) (h2 : a ≠ 1) (h3 : b ≠ 1) :
    bcastDim a b = none := by
  simp [bcastDim, h1, h2, h3]

theorem broadcastShapes_mismatch3 (a b c d e f : Nat)
    (h1 : c ≠ f) (h2 : c ≠ 1) (h3 : f ≠ 1) :
    broadcastShapes [a, b, c] [d, e, f] = none := by
  simp [broadcastShapes, bcastRev, bcastDim_none c f h1 h2 h3]

theorem Tensor.ewise_none {α : Type} (f : α → α → α) (t u : Tensor α)
    (h : broadcastShapes t.shape u.shape = none) :
    Tensor.ewise f t u = none := by
  simp [Tensor.ewise, h]

/-- When the hidden state's spatial size is broadcast-incompatible with the
input-to-hidden output size, the 1D step fails at the first gate combine. -/
theorem forward1d_mismatch_none {α : Type} [AddCommMonoid α] [Mul α] [Sub α] [One α]
    (sg th : α → α) (cell : ConvGRU1DCell α) (input hx ih hh : Tensor α)
    (b n1 n2 : Nat)
    (hih : cell.conv_ih.apply input = some ih)
    (hhh : cell.conv_hh.apply hx = some hh)
    (hihs : ih.shape = [b, 3 * cell.h_channels, n1])
    (hhhs : hh.shape = [b, 3 * cell.h_channels, n2])
    (hne : n1 ≠ n2) (h1 : n1 ≠ 1) (h2 : n2 ≠ 1) :
    cell.forward sg th input (some hx) = none := by
  have e1 : min cell.h_channels (3 * cell.h_channels) - 0 = cell.h_channels := by omega
  have sih0 : (ih.sliceCh 0 cell.h_channels).shape = [b, cell.h_channels, n1] := by
    rw [Tensor.sliceCh_shape3 ih b (3 * cell.h_channels) n1 0 cell.h_channels hihs, e1]
  have shh0 : (hh.sliceCh 0 cell.h_channels).shape = [b, cell.h_channels, n2] := by
    rw [Tensor.sliceCh_shape3 hh b (3 * cell.h_channels) n2 0 cell.h_channels hhhs, e1]
  have hb : broadcastShapes (ih.sliceCh 0 cell.h_channels).shape
      (hh.sliceCh 0 cell.h_channels).shape = none := by
    rw [sih0, shh0]
    exact broadcastShapes_mismatch3 b cell.h_channels n1 b cell.h_channels n2 hne h1 h2
  simp only [ConvGRU1DCell.forward, hih, hhh, Option.bind_eq_bind, Option.some_bind]
  rw [Tensor.ewise_none _ _ _ hb]
  rfl

/-- On an in-range rank-4 index, broadcasting from the same shape is identity. -/
theorem bcastIndex4 (a b c d i j k l : Nat)
    (hi : i < a) (hj : j < b) (hk : k < c) (hl : l < d) :
    bcastIndex [a, b, c, d] [i, j, k, l] = [i, j, k, l] := by
  simp only [bcastIndex, List.length_cons, List.length_nil]
  norm_num [List.zip, List.zipWith]
  refine ⟨?_, ?_, ?_, ?_⟩ <;> intro h <;> omega

theorem Tensor.sliceCh_shape4 {α : Type} (t : Tensor α) (b c m w lo hi : Nat)
    (h : t.shape = [b, c, m, w]) :
    (t.sliceCh lo hi).shape = [b, min hi c - lo, m, w] := by
  simp [Tensor.sliceCh, h]

theorem Tensor.sliceCh_data4 {α : Type} (t : Tensor α) (lo hi bi ci yi xi : Nat) :
    (t.sliceCh lo hi).data [bi, ci, yi, xi] = t.data [bi, lo + ci, yi, xi] := rfl

theorem Tensor.dim1_eq4 {α : Type} (t : Tensor α) (b c m w : Nat)
    (h : t.shape = [b, c, m, w]) : t.dim1 = c := by
  simp [Tensor.dim1, h]

theorem Tensor.sizeLast_eq4 {α : Type} (t : Tensor α) (b c m w : Nat)
    (h : t.shape = [b, c, m, w]) : t.sizeLast = w := by
  simp [Tensor.sizeLast, h]

theorem Tensor.sizeLast2_eq4 {α : Type} (t : Tensor α) (b c m w : Nat)
    (h : t.shape = [b, c, m, w]) : t.sizeLast2 = m := by
  simp [Tensor.sizeLast2, h, List.dropLast]

/-- Success and output shape of a well-posed 2D convolution. -/
theorem conv2d_apply_spec {α : Type} [AddCommMonoid α] [Mul α]
    (c : Conv2d α) (t : Tensor α) (b m w : Nat)
    (hsh : t.shape = [b, c.in_channels, m, w]) (hdev : t.device = c.weight.device)
    (hstr1 : 0 < c.stride.1) (hstr2 : 0 < c.stride.2)
    (hk1 : c.kernel_size.1 ≤ m + 2 * c.padding.1)
    (hk2 : c.kernel_size.2 ≤ w + 2 * c.padding.2) :
    ∃ out, c.apply t = some out ∧
      out.shape = [b, c.out_channels,
        (m + 2 * c.padding.1 - c.kernel_size.1) / c.stride.1 + 1,
        (w + 2 * c.padding.2 - c.kernel_size.2) / c.stride.2 + 1] ∧
      out.device = t.device := by
  simp only [Conv2d.apply, hsh]
  rw [if_pos ⟨True.intro, hdev, hstr1, hstr2, hk1, hk2⟩]
  exact ⟨_, rfl, rfl, rfl⟩

/-- A unit-stride 2D convolution with padding `kernel / 2` and odd kernel per
axis preserves the spatial sizes. -/
theorem conv2d_same_spec {α : Type} [AddCommMonoid α] [Mul α]
    (c : Conv2d α) (t : Tensor α) (b m w : Nat)
    (hsh : t.shape = [b, c.in_channels, m, w]) (hdev : t.device = c.weight.device)
    (hstr : c.stride = (1, 1))
    (hpad : c.padding = (c.kernel_size.1 / 2, c.kernel_size.2 / 2))
    (hodd1 : c.kernel_size.1 % 2 = 1) (hodd2 : c.kernel_size.2 % 2 = 1)
    (hm : 1 ≤ m) (hw : 1 ≤ w) :
    ∃ out, c.apply t = some out ∧ out.shape = [b, c.out_channels, m, w] ∧
      out.device = t.device := by
  obtain ⟨out, h1, h2, h3⟩ := conv2d_apply_spec c t b m w hsh hdev
    (by rw [hstr]; omega) (by rw [hstr]; omega)
    (by rw [hpad]; omega) (by rw [hpad]; omega)
  refine ⟨out, h1, ?_, h3⟩
  rw [h2, hstr, hpad]
  rw [show ((1, 1) : Nat × Nat).1 = 1 from rfl, show ((1, 1) : Nat × Nat).2 = 1 from rfl]
  rw [show (c.kernel_size.1 / 2, c.kernel_size.2 / 2).1 = c.kernel_size.1 / 2 from rfl]
  rw [show (c.kernel_size.1 / 2, c.kernel_size.2 / 2).2 = c.kernel_size.2 / 2 from rfl]
  rw [odd_same_padding m c.kernel_size.1 hodd1 hm,
    odd_same_padding w c.kernel_size.2 hodd2 hw]

/-- The gated-update formula of the 2D cell: on matching shapes, the step blends
the three sliced gate blocks exactly as the GRU equations prescribe. -/
theorem forward2d_gate_spec {α : Type} [AddCommMonoid α] [Mul α] [Sub α] [One α]
    (sg th : α → α) (cell : ConvGRU2DCell α) (input hx ih hh : Tensor α)
    (b m w : Nat)
    (hih : cell.conv_ih.apply input = some ih)
    (hhh : cell.conv_hh.apply hx = some hh)
    (hihs : ih.shape = [b, 3 * cell.h_channels, m, w])
    (hhhs : hh.shape = [b, 3 * cell.h_channels, m, w])
    (hhxs : hx.shape = [b, cell.h_channels, m, w])
    (hhd : hh.device = ih.device) (hxd : hx.device = ih.device) :
    ∃ out, cell.forward sg th input (some hx) = some out ∧
      out.shape = [b, cell.h_channels, m, w] ∧ out.device = ih.device ∧
      ∀ bi ci yi xi, bi < b → ci < cell.h_channels → yi < m → xi < w →
        out.data [bi, ci, yi, xi] =
          (1 - sg (ih.data [bi, ci, yi, xi] + hh.data [bi, ci, yi, xi])) *
            th (ih.data [bi, 2 * cell.h_channels + ci, yi, xi] +
              sg (ih.data [bi, cell.h_channels + ci, yi, xi] +
                  hh.data [bi, cell.h_channels + ci, yi, xi]) *
                hh.data [bi, 2 * cell.h_channels + ci, yi, xi]) +
          sg (ih.data [bi, ci, yi, xi] + hh.data [bi, ci, yi, xi]) *
            hx.data [bi, ci, yi, xi] := by
  have e1 : min cell.h_channels (3 * cell.h_channels) - 0 = cell.h_channels := by omega
  have e2 : min (2 * cell.h_channels) (3 * cell.h_channels) - cell.h_channels =
      cell.h_channels := by omega
  have e3 : min (3 * cell.h_channels) (3 * cell.h_channels) - 2 * cell.h_channels =
      cell.h_channels := by omega
  have hihd1 : ih.dim1 = 3 * cell.h_channels := Tensor.dim1_eq4 ih _ _ _ _ hihs
  have hhhd1 : hh.dim1 = 3 * cell.h_channels := Tensor.dim1_eq4 hh _ _ _ _ hhhs
  have sih0 : (ih.sliceCh 0 cell.h_channels).shape = [b, cell.h_channels, m, w] := by
    rw [Tensor.sliceCh_shape4 ih b (3 * cell.h_channels) m w 0 cell.h_channels hihs, e1]
  have shh0 : (hh.sliceCh 0 cell.h_channels).shape = [b, cell.h_channels, m, w] := by
    rw [Tensor.sliceCh_shape4 hh b (3 * cell.h_channels) m w 0 cell.h_channels hhhs, e1]
  have sih1 : (ih.sliceCh cell.h_channels (2 * cell.h_channels)).shape =
      [b, cell.h_channels, m, w] := by
    rw [Tensor.sliceCh_shape4 ih b (3 * cell.h_channels) m w cell.h_channels
      (2 * cell.h_channels) hihs, e2]
  have shh1 : (hh.sliceCh cell.h_channels (2 * cell.h_channels)).shape =
      [b, cell.h_channels, m, w] := by
    rw [Tensor.sliceCh_shape4 hh b (3 * cell.h_channels) m w cell.h_channels
      (2 * cell.h_channels) hhhs, e2]
  have sih2 : (ih.sliceCh (2 * cell.h_channels) (3 * cell.h_channels)).shape =
      [b, cell.h_channels, m, w] := by
    rw [Tensor.sliceCh_shape4 ih b (3 * cell.h_channels) m w (2 * cell.h_channels)
      (3 * cell.h_channels) hihs, e3]
  have shh2 : (hh.sliceCh (2 * cell.h_channels) (3 * cell.h_channels)).shape =
      [b, cell.h_channels, m, w] := by
    rw [Tensor.sliceCh_shape4 hh b (3 * cell.h_channels) m w (2 * cell.h_channels)
      (3 * cell.h_channels) hhhs, e3]
  obtain ⟨zsum, hz, hzs, hzd, hzv⟩ := Tensor.ewise_spec (· + ·)
    (ih.sliceCh 0 cell.h_channels) (hh.sliceCh 0 cell.h_channels)
    [b, cell.h_channels, m, w] ih.device sih0 shh0 rfl hhd
  obtain ⟨rsum, hr, hrs, hrd, hrv⟩ := Tensor.ewise_spec (· + ·)
    (ih.sliceCh cell.h_channels (2 * cell.h_channels))
    (hh.sliceCh cell.h_channels (2 * cell.h_channels))
    [b, cell.h_channels, m, w] ih.device sih1 shh1 rfl hhd
  obtain ⟨rh, hrh, hrhs, hrhd, hrhv⟩ := Tensor.ewise_spec (· * ·)
    (Tensor.map sg rsum) (hh.sliceCh (2 * cell.h_channels) (3 * cell.h_channels))
    [b, cell.h_channels, m, w] ih.device (by rw [Tensor.map_shape, hrs]) shh2
    (by rw [Tensor.map_device, hrd]) hhd
  obtain ⟨nsum, hn, hns, hnd, hnv⟩ := Tensor.ewise_spec (· + ·)
    (ih.sliceCh (2 * cell.h_channels) (3 * cell.h_channels)) rh
    [b, cell.h_channels, m, w] ih.device sih2 hrhs rfl hrhd
  obtain ⟨zn, hzn, hzns, hznd, hznv⟩ := Tensor.ewise_spec (· * ·)
    (scalarSub 1 (Tensor.map sg zsum)) (Tensor.map th nsum)
    [b, cell.h_channels, m, w] ih.device
    (by rw [scalarSub_shape, Tensor.map_shape, hzs])
    (by rw [Tensor.map_shape, hns])
    (by rw [scalarSub_device, Tensor.map_device, hzd])
    (by rw [Tensor.map_device, hnd])
  obtain ⟨zh, hzh, hzhs, hzhd, hzhv⟩ := Tensor.ewise_spec (· * ·)
    (Tensor.map sg zsum) hx [b, cell.h_channels, m, w] ih.device
    (by rw [Tensor.map_shape, hzs]) hhxs (by rw [Tensor.map_device, hzd]) hxd
  obtain ⟨res, hres, hress, hresd, hresv⟩ := Tensor.ewise_spec (· + ·)
    zn zh [b, cell.h_channels, m, w] ih.device hzns hzhs hznd hzhd
  refine ⟨res, ?_, hress, hresd, ?_⟩
  · simp only [ConvGRU2DCell.forward, hih, hhh, hihd1, hhhd1, Option.bind_eq_bind,
      Option.some_bind]
    rw [hz, Option.some_bind, hr, Option.some_bind, hrh, Option.some_bind,
      hn, Option.some_bind, hzn, Option.some_bind, hzh, Option.some_bind, hres]
  · intro bi ci yi xi hbi hci hyi hxi
    have hidx : bcastIndex [b, cell.h_channels, m, w] [bi, ci, yi, xi] =
        [bi, ci, yi, xi] := bcastIndex4 _ _ _ _ _ _ _ _ hbi hci hyi hxi
    simp only [hresv, hidx, hznv, hzhv, hnv, hrhv, hrv, hzv, Tensor.map_data,
      scalarSub_data, Tensor.sliceCh_data4, Nat.zero_add]

theorem IntOrPair.toPair_pair (a b : Nat) : (IntOrPair.pair a b).toPair = (a, b) := rfl

/-- Every field of the cell produced by the 2D constructor from a per-axis
recurrent kernel size. -/
theorem build2_fields {α : Type} [Zero α] (P : InitPolicy α) (dev ic hc : Nat)
    (ks st pd : IntOrPair) (r0 r1 : Nat) (cell : ConvGRU2DCell α)
    (h : ConvGRU2DCell.build P dev ic hc ks st pd (IntOrPair.pair r0 r1) = some cell) :
    cell.conv_ih.in_channels = ic ∧ cell.conv_ih.out_channels = hc * 3 ∧
    cell.conv_ih.kernel_size = ks.toPair ∧ cell.conv_ih.stride = st.toPair ∧
    cell.conv_ih.padding = pd.toPair ∧ cell.conv_ih.weight.device = dev ∧
    cell.conv_hh.in_channels = hc ∧ cell.conv_hh.out_channels = hc * 3 ∧
    cell.conv_hh.kernel_size = (r0, r1) ∧ cell.conv_hh.stride = (1, 1) ∧
    cell.conv_hh.padding = (r0 / 2, r1 / 2) ∧ cell.conv_hh.weight.device = dev ∧
    cell.h_channels = hc := by
  have hc2 : _ = cell := Option.some.inj h
  subst hc2
  exact ⟨rfl, rfl, rfl, rfl, rfl, rfl, rfl, rfl, rfl, rfl, rfl, rfl, rfl⟩

/-- With no hidden state supplied, the 2D `forward` proceeds exactly as if the
zero tensor of the computed shape on the input's device had been supplied. -/
theorem forward2d_none_eq {α : Type} [AddCommMonoid α] [Mul α] [Sub α] [One α]
    (sg th : α → α) (cell : ConvGRU2DCell α) (input : Tensor α)
    (hpos1 : 0 ≤ conv1dOutputSize input.sizeLast2 cell.conv_ih.kernel_size.1
      cell.conv_ih.padding.1 cell.conv_ih.stride.1)
    (hpos2 : 0 ≤ conv1dOutputSize input.sizeLast cell.conv_ih.kernel_size.2
      cell.conv_ih.padding.2 cell.conv_ih.stride.2) :
    cell.forward sg th input none =
      cell.forward sg th input (some (Tensor.zeros
        [input.size0, cell.h_channels,
          (conv1dOutputSize input.sizeLast2 cell.conv_ih.kernel_size.1
            cell.conv_ih.padding.1 cell.conv_ih.stride.1).toNat,
          (conv1dOutputSize input.sizeLast cell.conv_ih.kernel_size.2
            cell.conv_ih.padding.2 cell.conv_ih.stride.2).toNat] input.device)) := by
  simp only [ConvGRU2DCell.forward]
  rw [if_pos ⟨hpos1, hpos2⟩]

theorem broadcastShapes_mismatch4 (a b c d e f g h : Nat)
    (hbad : (c ≠ g ∧ c ≠ 1 ∧ g ≠ 1) ∨ (d ≠ h ∧ d ≠ 1 ∧ h ≠ 1)) :
    broadcastShapes [a, b, c, d] [e, f, g, h] = none := by
  rcases hbad with ⟨h1, h2, h3⟩ | ⟨h1, h2, h3⟩
  · have hcg := bcastDim_none c g h1 h2 h3
    rcases hdh : bcastDim d h with _ | v <;>
      simp [broadcastShapes, bcastRev, hdh, hcg]
  · have hdh := bcastDim_none d h h1 h2 h3
    simp [broadcastShapes, bcastRev, hdh]

/-- When the hidden state's spatial sizes are broadcast-incompatible with the
input-to-hidden output sizes on either axis, the 2D step fails at the first
gate combine. -/
theorem forward2d_mismatch_none {α : Type} [AddCommMonoid α] [Mul α] [Sub α] [One α]
    (sg th : α → α) (cell : ConvGRU2DCell α) (input hx ih hh : Tensor α)
    (b m1 w1 m2 w2 : Nat)
    (hih : cell.conv_ih.apply input = some ih)
    (hhh : cell.conv_hh.apply hx = some hh)
    (hihs : ih.shape = [b, 3 * cell.h_channels, m1, w1])
    (hhhs : hh.shape = [b, 3 * cell.h_channels, m2, w2])
    (hbad : (m1 ≠ m2 ∧ m1 ≠ 1 ∧ m2 ≠ 1) ∨ (w1 ≠ w2 ∧ w1 ≠ 1 ∧ w2 ≠ 1)) :
    cell.forward sg th input (some hx) = none := by
  have e1 : min cell.h_channels (3 * cell.h_channels) - 0 = cell.h_channels := by omega
  have sih0 : (ih.sliceCh 0 cell.h_channels).shape = [b, cell.h_channels, m1, w1] := by
    rw [Tensor.sliceCh_shape4 ih b (3 * cell.h_channels) m1 w1 0 cell.h_channels hihs, e1]
  have shh0 : (hh.sliceCh 0 cell.h_channels).shape = [b, cell.h_channels, m2, w2] := by
    rw [Tensor.sliceCh_shape4 hh b (3 * cell.h_channels) m2 w2 0 cell.h_channels hhhs, e1]
  have hb : broadcastShapes (ih.sliceCh 0 cell.h_channels).shape
      (hh.sliceCh 0 cell.h_channels).shape = none := by
    rw [sih0, shh0]
    exact broadcastShapes_mismatch4 b cell.h_channels m1 w1 b cell.h_channels m2 w2 hbad
  simp only [ConvGRU2DCell.forward, hih, hhh, Option.bind_eq_bind, Option.some_bind]
  rw [Tensor.ewise_none _ _ _ hb]
  rfl

/-- Full success spec of the 2D cell produced by the constructor, on a supplied
hidden state of the matching shape. -/
theorem forward2d_build_some {α : Type} [AddCommMonoid α] [Mul α] [Sub α] [One α]
    (sg th : α → α) (P : InitPolicy α) (dev ic hc : Nat)
    (ks st pd : IntOrPair) (r0 r1 : Nat) (cell : ConvGRU2DCell α)
    (hbuild : ConvGRU2DCell.build P dev ic hc ks st pd (IntOrPair.pair r0 r1) =
      some cell)
    (b m w : Nat) (input hxT : Tensor α)
    (hs1 : 0 < st.toPair.1) (hs2 : 0 < st.toPair.2)
    (hodd1 : r0 % 2 = 1) (hodd2 : r1 % 2 = 1)
    (hsh : input.shape = [b, ic, m, w]) (hdev : input.device = dev)
    (hk1 : ks.toPair.1 ≤ m + 2 * pd.toPair.1)
    (hk2 : ks.toPair.2 ≤ w + 2 * pd.toPair.2)
    (hxs : hxT.shape = [b, hc,
      (m + 2 * pd.toPair.1 - ks.toPair.1) / st.toPair.1 + 1,
      (w + 2 * pd.toPair.2 - ks.toPair.2) / st.toPair.2 + 1])
    (hxd : hxT.device = dev) :
    ∃ out, cell.forward sg th input (some hxT) = some out ∧
      out.shape = [b, hc,
        (m + 2 * pd.toPair.1 - ks.toPair.1) / st.toPair.1 + 1,
        (w + 2 * pd.toPair.2 - ks.toPair.2) / st.toPair.2 + 1] ∧
      out.device = input.device := by
  obtain ⟨fii, fio, fik, fis, fip, fiw, fhi, fho, fhk, fhs, fhp, fhw, fhc⟩ :=
    build2_fields P dev ic hc ks st pd r0 r1 cell hbuild
  obtain ⟨ih, hih, hihs, hihd⟩ :=
    conv2d_apply_spec cell.conv_ih input b m w
      (by rw [fii]; exact hsh) (by rw [fiw]; exact hdev)
      (by rw [fis]; exact hs1) (by rw [fis]; exact hs2)
      (by rw [fik, fip]; exact hk1) (by rw [fik, fip]; exact hk2)
  obtain ⟨hh, hhh, hhhs, hhhd⟩ :=
    conv2d_same_spec cell.conv_hh hxT b
      ((m + 2 * pd.toPair.1 - ks.toPair.1) / st.toPair.1 + 1)
      ((w + 2 * pd.toPair.2 - ks.toPair.2) / st.toPair.2 + 1)
      (by rw [fhi]; exact hxs) (by rw [fhw]; exact hxd) fhs
      (by rw [fhp, fhk]) (by rw [fhk]; exact hodd1) (by rw [fhk]; exact hodd2)
      (Nat.le_add_left 1 _) (Nat.le_add_left 1 _)
  obtain ⟨out, hfwd, hos, hod, hov⟩ :=
    forward2d_gate_spec sg th cell input hxT ih hh b
      ((m + 2 * pd.toPair.1 - ks.toPair.1) / st.toPair.1 + 1)
      ((w + 2 * pd.toPair.2 - ks.toPair.2) / st.toPair.2 + 1)
      hih hhh
      (by rw [hihs, fio, fik, fip, fis, fhc, Nat.mul_comm hc 3])
      (by rw [hhhs, fho, fhc, Nat.mul_comm hc 3])
      (by rw [hxs, fhc])
      (by rw [hhhd, hxd, hihd, hdev])
      (by rw [hxd, hihd, hdev])
  refine ⟨out, hfwd, ?_, by rw [hod, hihd]⟩
  rw [hos, fhc]

/-- Full success spec of the 2D cell produced by the constructor when no hidden
state is supplied. -/
theorem forward2d_build_none {α : Type} [AddCommMonoid α] [Mul α] [Sub α] [One α]
    (sg th : α → α) (P : InitPolicy α) (dev ic hc : Nat)
    (ks st pd : IntOrPair) (r0 r1 : Nat) (cell : ConvGRU2DCell α)
    (hbuild : ConvGRU2DCell.build P dev ic hc ks st pd (IntOrPair.pair r0 r1) =
      some cell)
    (b m w : Nat) (input : Tensor α)
    (hs1 : 0 < st.toPair.1) (hs2 : 0 < st.toPair.2)
    (hodd1 : r0 % 2 = 1) (hodd2 : r1 % 2 = 1)
    (hsh : input.shape = [b, ic, m, w]) (hdev : input.device = dev)
    (hk1 : ks.toPair.1 ≤ m + 2 * pd.toPair.1)
    (hk2 : ks.toPair.2 ≤ w + 2 * pd.toPair.2) :
    ∃ out, cell.forward sg th input none = some out ∧
      out.shape = [b, hc,
        (m + 2 * pd.toPair.1 - ks.toPair.1) / st.toPair.1 + 1,
        (w + 2 * pd.toPair.2 - ks.toPair.2) / st.toPair.2 + 1] ∧
      out.device = input.device := by
  obtain ⟨fii, fio, fik, fis, fip, fiw, fhi, fho, fhk, fhs, fhp, fhw, fhc⟩ :=
    build2_fields P dev ic hc ks st pd r0 r1 cell hbuild
  have hlast : input.sizeLast = w := Tensor.sizeLast_eq4 input b ic m w hsh
  have hlast2 : input.sizeLast2 = m := Tensor.sizeLast2_eq4 input b ic m w hsh
  have hz : input.size0 = b := Tensor.size0_eq input b [ic, m, w] hsh
  rw [forward2d_none_eq sg th cell input
    (by rw [hlast2, fik, fip, fis]
        exact conv1dOutputSize_nonneg m ks.toPair.1 pd.toPair.1 st.toPair.1 hk1 hs1)
    (by rw [hlast, fik, fip, fis]
        exact conv1dOutputSize_nonneg w ks.toPair.2 pd.toPair.2 st.toPair.2 hk2 hs2)]
  exact forward2d_build_some sg th P dev ic hc ks st pd r0 r1 cell hbuild b m w input _
    hs1 hs2 hodd1 hodd2 hsh hdev hk1 hk2
    (by rw [Tensor.zeros_shape, hz, fhc, hlast, hlast2, fik, fip, fis,
          conv1dOutputSize_toNat m ks.toPair.1 pd.toPair.1 st.toPair.1 hk1 hs1,
          conv1dOutputSize_toNat w ks.toPair.2 pd.toPair.2 st.toPair.2 hk2 hs2])
    (by rw [Tensor.zeros_device, hdev])

/-- The scan accumulator produces one output per frame, and its element at time
t is exactly the manual iterative stepping over the first t+1 frames. -/
theorem scanCell_spec {α : Type} [AddCommMonoid α] [Mul α] [Sub α] [One α]
    (sg th : α → α) (cell : ConvGRU1DCell α) :
    ∀ (frames : List (Tensor α)) (init : Option (Tensor α)) (outs : List (Tensor α)),
      scanCell sg th cell init frames = some outs →
      outs.length = frames.length ∧
      ∀ t (ht : t < outs.length), some (outs.get ⟨t, ht⟩) =
        manualSteps sg th cell init (frames.take (t + 1))
  | [], init, outs, h => by
    simp only [scanCell, Option.some.injEq] at h
    subst h
    exact ⟨rfl, fun t ht => absurd ht (by simp)⟩
  | f :: rest, init, outs, h => by
    simp only [scanCell, Option.bind_eq_bind] at h
    cases hf : cell.forward sg th f init with
    | none => rw [hf] at h; simp at h
    | some h1 =>
      rw [hf] at h
      simp only [Option.some_bind] at h
      cases hs : scanCell sg th cell (some h1) rest with
      | none => rw [hs] at h; simp at h
      | some tail =>
        rw [hs] at h
        simp only [Option.some_bind, Option.pure_def, Option.some.injEq] at h
        subst h
        obtain ⟨hlen, hval⟩ := scanCell_spec sg th cell rest (some h1) tail hs
        refine ⟨by simp [hlen], ?_⟩
        intro t ht
        cases t with
        | zero => simp [manualSteps, hf]
        | succ u =>
          cases rest with
          | nil =>
            exfalso
            have : tail.length = 0 := by simp [hlen]
            simp only [List.length_cons, this] at ht
            omega
          | cons g rest2 =>
            have hu : u < tail.length := by
              simp only [List.length_cons] at ht
              omega
            have := hval u hu
            simp only [List.take_succ_cons] at this ⊢
            simp only [manualSteps, hf]
            simpa using this

/-- Inversion of `run`: the output sequence is the scan accumulator, its length
matches the input sequence, every element is the manual iterative stepping, and
the final hidden state is the last element. -/
theorem ConvGRUSequence.run_spec {α : Type} [AddCommMonoid α] [Mul α] [Sub α] [One α]
    (sg th : α → α) (cell : ConvGRU1DCell α) (seq : List (Tensor α))
    (init0 : Option (Tensor α)) (outs : List (Tensor α)) (fin : Tensor α)
    (h : ConvGRUSequence.run sg th cell seq init0 = some (outs, fin)) :
    outs.length = seq.length ∧
    (∀ t (ht : t < outs.length), some (outs.get ⟨t, ht⟩) =
      manualSteps sg th cell init0 (seq.take (t + 1))) ∧
    outs.getLast? = some fin := by
  simp only [ConvGRUSequence.run, Option.bind_eq_bind] at h
  cases hscan : scanCell sg th cell init0 seq with
  | none => rw [hscan] at h; simp at h
  | some outs2 =>
    rw [hscan] at h
    simp only [Option.some_bind] at h
    cases hlast : outs2.getLast? with
    | none => rw [hlast] at h; simp at h
    | some fin2 =>
      rw [hlast] at h
      simp only [Option.pure_def, Option.some.injEq, Prod.mk.injEq] at h
      obtain ⟨h1, h2⟩ := h
      subst h1
      subst h2
      obtain ⟨hlen, hval⟩ := scanCell_spec sg th cell seq init0 outs2 hscan
      exact ⟨hlen, hval, hlast⟩

/-- C1: For every input frame and previous hidden state of matching shapes, the
Cell step (1D and 2D) partitions each convolution output into three equal
contiguous channel blocks in the fixed order z, r, n (channel offsets 0,
h_channels, 2·h_channels of the 3·h_channels channels) and returns
(1 − z) ⊙ n + z ⊙ previous_hidden, where z = sigmoid(ih_block0 + hh_block0),
r = sigmoid(ih_block1 + hh_block1) and n = tanh(ih_block2 + r ⊙ hh_block2). -/
theorem claim_C1_gate_equations {α : Type} [AddCommMonoid α] [Mul α] [Sub α] [One α]
    (sigmoid tanh : α → α) :
    (∀ (cell : ConvGRU1DCell α) (input hx ih hh : Tensor α) (b np : Nat),
      cell.conv_ih.apply input = some ih →
      cell.conv_hh.apply hx = some hh →
      ih.shape = [b, 3 * cell.h_channels, np] →
      hh.shape = [b, 3 * cell.h_channels, np] →
      hx.shape = [b, cell.h_channels, np] →
      hh.device = ih.device → hx.device = ih.device →
      ∃ out, cell.forward sigmoid tanh input (some hx) = some out ∧
        out.shape = [b, cell.h_channels, np] ∧ out.device = ih.device ∧
        ∀ bi ci xi, bi < b → ci < cell.h_channels → xi < np →
          out.data [bi, ci, xi] =
            (1 - sigmoid (ih.data [bi, ci, xi] + hh.data [bi, ci, xi])) *
              tanh (ih.data [bi, 2 * cell.h_channels + ci, xi] +
                sigmoid (ih.data [bi, cell.h_channels + ci, xi] +
                    hh.data [bi, cell.h_channels + ci, xi]) *
                  hh.data [bi, 2 * cell.h_channels + ci, xi]) +
            sigmoid (ih.data [bi, ci, xi] + hh.data [bi, ci, xi]) *
              hx.data [bi, ci, xi]) ∧
    (∀ (cell : ConvGRU2DCell α) (input hx ih hh : Tensor α) (b m w : Nat),
      cell.conv_ih.apply input = some ih →
      cell.conv_hh.apply hx = some hh →
      ih.shape = [b, 3 * cell.h_channels, m, w] →
      hh.shape = [b, 3 * cell.h_channels, m, w] →
      hx.shape = [b, cell.h_channels, m, w] →
      hh.device = ih.device → hx.device = ih.device →
      ∃ out, cell.forward sigmoid tanh input (some hx) = some out ∧
        out.shape = [b, cell.h_channels, m, w] ∧ out.device = ih.device ∧
        ∀ bi ci yi xi, bi < b → ci < cell.h_channels → yi < m → xi < w →
          out.data [bi, ci, yi, xi] =
            (1 - sigmoid (ih.data [bi, ci, yi, xi] + hh.data [bi, ci, yi, xi])) *
              tanh (ih.data [bi, 2 * cell.h_channels + ci, yi, xi] +
                sigmoid (ih.data [bi, cell.h_channels + ci, yi, xi] +
                    hh.data [bi, cell.h_channels + ci, yi, xi]) *
                  hh.data [bi, 2 * cell.h_channels + ci, yi, xi]) +
            sigmoid (ih.data [bi, ci, yi, xi] + hh.data [bi, ci, yi, xi]) *
              hx.data [bi, ci, yi, xi]) :=
  ⟨fun cell input hx ih hh b np h1 h2 h3 h4 h5 h6 h7 =>
      forward1d_gate_spec sigmoid tanh cell input hx ih hh b np h1 h2 h3 h4 h5 h6 h7,
    fun cell input hx ih hh b m w h1 h2 h3 h4 h5 h6 h7 =>
      forward2d_gate_spec sigmoid tanh cell input hx ih hh b m w h1 h2 h3 h4 h5 h6 h7⟩

/-- Witness for C1 at a concrete 1D and 2D cell, input and hidden state. -/
theorem claim_C1_gate_equations_witness :
    (cell1A.forward id id input1A (some hx1A)).isSome = true ∧
    (cell2A.forward id id input2A (some hx2A)).isSome = true := by
  obtain ⟨o1, h1, -, -, -⟩ := (claim_C1_gate_equations (α := Int) id id).1
    cell1A input1A hx1A ih1A hh1A 1 2 rfl rfl rfl rfl rfl rfl rfl
  obtain ⟨o2, h2, -, -, -⟩ := (claim_C1_gate_equations (α := Int) id id).2
    cell2A input2A hx2A ih2A hh2A 1 2 2 rfl rfl rfl rfl rfl rfl rfl
  rw [h1, h2]
  exact ⟨rfl, rfl⟩

/-- C2: When step is called with the previous hidden state absent, the Cell
(1D and 2D) behaves exactly as if it had been supplied a zero tensor of shape
(batch, hidden_channels, per-axis ⌊(size − kernel + 2·padding) / stride⌋ + 1,
computed from the input-to-hidden convolution's stored parameters) on the
input's device — shaped to the computed output size, not the input's own
spatial size. -/
theorem claim_C2_default_hidden {α : Type} [AddCommMonoid α] [Mul α] [Sub α] [One α]
    (sigmoid tanh : α → α) :
    (∀ (cell : ConvGRU1DCell α) (input : Tensor α) (b c0 n : Nat),
      input.shape = [b, c0, n] → 0 < cell.conv_ih.stride →
      cell.conv_ih.kernel_size ≤ n + 2 * cell.conv_ih.padding →
      cell.forward sigmoid tanh input none = cell.forward sigmoid tanh input
        (some (Tensor.zeros [b, cell.h_channels,
          (n + 2 * cell.conv_ih.padding - cell.conv_ih.kernel_size) /
            cell.conv_ih.stride + 1] input.device))) ∧
    (∀ (cell : ConvGRU2DCell α) (input : Tensor α) (b c0 m w : Nat),
      input.shape = [b, c0, m, w] →
      0 < cell.conv_ih.stride.1 → 0 < cell.conv_ih.stride.2 →
      cell.conv_ih.kernel_size.1 ≤ m + 2 * cell.conv_ih.padding.1 →
      cell.conv_ih.kernel_size.2 ≤ w + 2 * cell.conv_ih.padding.2 →
      cell.forward sigmoid tanh input none = cell.forward sigmoid tanh input
        (some (Tensor.zeros [b, cell.h_channels,
          (m + 2 * cell.conv_ih.padding.1 - cell.conv_ih.kernel_size.1) /
            cell.conv_ih.stride.1 + 1,
          (w + 2 * cell.conv_ih.padding.2 - cell.conv_ih.kernel_size.2) /
            cell.conv_ih.stride.2 + 1] input.device))) := by
  constructor
  · intro cell input b c0 n hsh hs hk
    have hlast : input.sizeLast = n := Tensor.sizeLast_eq3 input b c0 n hsh
    have hz : input.size0 = b := Tensor.size0_eq input b [c0, n] hsh
    rw [forward1d_none_eq sigmoid tanh cell input
      (by rw [hlast]; exact conv1dOutputSize_nonneg n _ _ _ hk hs)]
    have hzt : Tensor.zeros (α := α) [input.size0, cell.h_channels,
        (conv1dOutputSize input.sizeLast cell.conv_ih.kernel_size
          cell.conv_ih.padding cell.conv_ih.stride).toNat] input.device =
        Tensor.zeros [b, cell.h_channels,
          (n + 2 * cell.conv_ih.padding - cell.conv_ih.kernel_size) /
            cell.conv_ih.stride + 1] input.device := by
      rw [hz, hlast, conv1dOutputSize_toNat n _ _ _ hk hs]
    rw [hzt]
  · intro cell input b c0 m w hsh hs1 hs2 hk1 hk2
    have hlast : input.sizeLast = w := Tensor.sizeLast_eq4 input b c0 m w hsh
    have hlast2 : input.sizeLast2 = m := Tensor.sizeLast2_eq4 input b c0 m w hsh
    have hz : input.size0 = b := Tensor.size0_eq input b [c0, m, w] hsh
    rw [forward2d_none_eq sigmoid tanh cell input
      (by rw [hlast2]; exact conv1dOutputSize_nonneg m _ _ _ hk1 hs1)
      (by rw [hlast]; exact conv1dOutputSize_nonneg w _ _ _ hk2 hs2)]
    have hzt : Tensor.zeros (α := α) [input.size0, cell.h_channels,
        (conv1dOutputSize input.sizeLast2 cell.conv_ih.kernel_size.1
          cell.conv_ih.padding.1 cell.conv_ih.stride.1).toNat,
        (conv1dOutputSize input.sizeLast cell.conv_ih.kernel_size.2
          cell.conv_ih.padding.2 cell.conv_ih.stride.2).toNat] input.device =
        Tensor.zeros [b, cell.h_channels,
          (m + 2 * cell.conv_ih.padding.1 - cell.conv_ih.kernel_size.1) /
            cell.conv_ih.stride.1 + 1,
          (w + 2 * cell.conv_ih.padding.2 - cell.conv_ih.kernel_size.2) /
            cell.conv_ih.stride.2 + 1] input.device := by
      rw [hz, hlast, hlast2, conv1dOutputSize_toNat m _ _ _ hk1 hs1,
        conv1dOutputSize_toNat w _ _ _ hk2 hs2]
    rw [hzt]

/-- Witness for C2 at a concrete 1D and 2D cell and input. -/
theorem claim_C2_default_hidden_witness :
    (cell1A.forward id id input1A none = cell1A.forward id id input1A
      (some (Tensor.zeros [1, 1, 2] 0))) ∧
    (cell2A.forward id id input2A none = cell2A.forward id id input2A
      (some (Tensor.zeros [1, 1, 2, 2] 0))) :=
  ⟨(claim_C2_default_hidden (α := Int) id id).1 cell1A input1A 1 1 2 rfl
      (by decide) (by decide),
    (claim_C2_default_hidden (α := Int) id id).2 cell2A input2A 1 1 2 2 rfl
      (by decide) (by decide) (by decide) (by decide)⟩

/-- C3: For every valid input of shape (batch, input_channels, spatial…) and
every valid configuration, step returns a tensor of shape
(batch, hidden_channels, computed output spatial size…) exactly, with the same
batch size and device as the input, in both the 1D and 2D variants (with the
hidden state either absent or of the matching shape and device). -/
theorem claim_C3_output_shape {α : Type} [AddCommMonoid α] [Mul α] [Sub α] [One α]
    (sigmoid tanh : α → α) :
    (∀ (P : InitPolicy α) (dev ic hc k s p rk b n : Nat) (input : Tensor α)
      (hx0 : Option (Tensor α)),
      0 < s → rk % 2 = 1 → input.shape = [b, ic, n] → input.device = dev →
      k ≤ n + 2 * p →
      (hx0 = none ∨ ∃ hxT, hx0 = some hxT ∧
        hxT.shape = [b, hc, (n + 2 * p - k) / s + 1] ∧ hxT.device = dev) →
      ∃ out, (ConvGRU1DCell.build P dev ic hc k s p rk).forward sigmoid tanh
          input hx0 = some out ∧
        out.shape = [b, hc, (n + 2 * p - k) / s + 1] ∧
        out.device = input.device) ∧
    (∀ (P : InitPolicy α) (dev ic hc : Nat) (ks st pd : IntOrPair) (r0 r1 : Nat)
      (cell : ConvGRU2DCell α) (b m w : Nat) (input : Tensor α)
      (hx0 : Option (Tensor α)),
      ConvGRU2DCell.build P dev ic hc ks st pd (IntOrPair.pair r0 r1) = some cell →
      0 < st.toPair.1 → 0 < st.toPair.2 → r0 % 2 = 1 → r1 % 2 = 1 →
      input.shape = [b, ic, m, w] → input.device = dev →
      ks.toPair.1 ≤ m + 2 * pd.toPair.1 → ks.toPair.2 ≤ w + 2 * pd.toPair.2 →
      (hx0 = none ∨ ∃ hxT, hx0 = some hxT ∧
        hxT.shape = [b, hc, (m + 2 * pd.toPair.1 - ks.toPair.1) / st.toPair.1 + 1,
          (w + 2 * pd.toPair.2 - ks.toPair.2) / st.toPair.2 + 1] ∧
        hxT.device = dev) →
      ∃ out, cell.forward sigmoid tanh input hx0 = some out ∧
        out.shape = [b, hc, (m + 2 * pd.toPair.1 - ks.toPair.1) / st.toPair.1 + 1,
          (w + 2 * pd.toPair.2 - ks.toPair.2) / st.toPair.2 + 1] ∧
        out.device = input.device) := by
  constructor
  · intro P dev ic hc k s p rk b n input hx0 hs hodd hsh hdev hk hhx
    rcases hhx with rfl | ⟨hxT, rfl, hxs, hxd⟩
    · exact forward1d_build_none sigmoid tanh P dev ic hc k s p rk b n input
        hs hodd hsh hdev hk
    · exact forward1d_build_some sigmoid tanh P dev ic hc k s p rk b n input hxT
        hs hodd hsh hdev hk hxs hxd
  · intro P dev ic hc ks st pd r0 r1 cell b m w input hx0 hbuild hs1 hs2 hodd1
      hodd2 hsh hdev hk1 hk2 hhx
    rcases hhx with rfl | ⟨hxT, rfl, hxs, hxd⟩
    · exact forward2d_build_none sigmoid tanh P dev ic hc ks st pd r0 r1 cell
        hbuild b m w input hs1 hs2 hodd1 hodd2 hsh hdev hk1 hk2
    · exact forward2d_build_some sigmoid tanh P dev ic hc ks st pd r0 r1 cell
        hbuild b m w input hxT hs1 hs2 hodd1 hodd2 hsh hdev hk1 hk2 hxs hxd

/-- Witness for C3 at a concrete configuration and input (both variants, with
the hidden state absent). -/
theorem claim_C3_output_shape_witness :
    (∃ out, cell1A.forward id id input1A none = some out ∧
      out.shape = [1, 1, 2] ∧ out.device = input1A.device) ∧
    (∃ out, cell2A.forward id id input2A none = some out ∧
      out.shape = [1, 1, 2, 2] ∧ out.device = input2A.device) :=
  ⟨(claim_C3_output_shape (α := Int) id id).1 polOne 0 1 1 1 1 0 1 1 2 input1A
      none (by decide) (by decide) rfl rfl (by decide) (Or.inl rfl),
    (claim_C3_output_shape (α := Int) id id).2 polOne 0 1 1 (IntOrPair.pair 1 1)
      (IntOrPair.pair 1 1) (IntOrPair.pair 0 0) 1 1 cell2A 1 2 2 input2A none rfl
      (by decide) (by decide) (by decide) (by decide) rfl rfl (by decide)
      (by decide) (Or.inl rfl)⟩

/-- C4: In every constructed Cell (1D and 2D), the hidden-to-hidden convolution
has 3 × hidden_channels output channels, stride 1, and padding
⌊recurrent_kernel_size / 2⌋ per axis, and — whenever the recurrent kernel size
is odd per axis — maps every hidden state to an output of the same spatial
size (shape-stable recurrence). -/
theorem claim_C4_recurrent_conv {α : Type} [Zero α] [AddCommMonoid α] [Mul α] :
    (∀ (P : InitPolicy α) (dev ic hc k s p rk : Nat),
      (ConvGRU1DCell.build P dev ic hc k s p rk).conv_hh.out_channels = 3 * hc ∧
      (ConvGRU1DCell.build P dev ic hc k s p rk).conv_hh.stride = 1 ∧
      (ConvGRU1DCell.build P dev ic hc k s p rk).conv_hh.padding = rk / 2 ∧
      (rk % 2 = 1 → ∀ (hx : Tensor α) (b m : Nat), hx.shape = [b, hc, m] →
        hx.device = dev → 1 ≤ m →
        ∃ out, (ConvGRU1DCell.build P dev ic hc k s p rk).conv_hh.apply hx =
            some out ∧ out.shape = [b, 3 * hc, m])) ∧
    (∀ (P : InitPolicy α) (dev ic hc : Nat) (ks st pd : IntOrPair) (r0 r1 : Nat)
      (cell : ConvGRU2DCell α),
      ConvGRU2DCell.build P dev ic hc ks st pd (IntOrPair.pair r0 r1) = some cell →
      cell.conv_hh.out_channels = 3 * hc ∧
      cell.conv_hh.stride = (1, 1) ∧
      cell.conv_hh.padding = (r0 / 2, r1 / 2) ∧
      (r0 % 2 = 1 → r1 % 2 = 1 → ∀ (hx : Tensor α) (b m w : Nat),
        hx.shape = [b, hc, m, w] → hx.device = dev → 1 ≤ m → 1 ≤ w →
        ∃ out, cell.conv_hh.apply hx = some out ∧
          out.shape = [b, 3 * hc, m, w])) := by
  constructor
  · intro P dev ic hc k s p rk
    refine ⟨(build1_hh_out P dev ic hc k s p rk).trans (Nat.mul_comm hc 3),
      build1_hh_stride P dev ic hc k s p rk,
      build1_hh_padding P dev ic hc k s p rk, ?_⟩
    intro hodd hx b m hsh hdev hm
    obtain ⟨out, h1, h2, h3⟩ := conv1d_same_spec
      (ConvGRU1DCell.build P dev ic hc k s p rk).conv_hh hx b m
      (by rw [build1_hh_in]; exact hsh) (by rw [build1_hh_wdev]; exact hdev)
      (build1_hh_stride P dev ic hc k s p rk)
      (by rw [build1_hh_padding, build1_hh_kernel])
      (by rw [build1_hh_kernel]; exact hodd) hm
    exact ⟨out, h1, by rw [h2, build1_hh_out, Nat.mul_comm hc 3]⟩
  · intro P dev ic hc ks st pd r0 r1 cell hbuild
    obtain ⟨fii, fio, fik, fis, fip, fiw, fhi, fho, fhk, fhs, fhp, fhw, fhc⟩ :=
      build2_fields P dev ic hc ks st pd r0 r1 cell hbuild
    refine ⟨fho.trans (Nat.mul_comm hc 3), fhs, fhp, ?_⟩
    intro hodd1 hodd2 hx b m w hsh hdev hm hw
    obtain ⟨out, h1, h2, h3⟩ := conv2d_same_spec cell.conv_hh hx b m w
      (by rw [fhi]; exact hsh) (by rw [fhw]; exact hdev) fhs
      (by rw [fhp, fhk]) (by rw [fhk]; exact hodd1) (by rw [fhk]; exact hodd2)
      hm hw
    exact ⟨out, h1, by rw [h2, fho, Nat.mul_comm hc 3]⟩

/-- Witness for C4 at a concrete 1D and 2D cell with odd recurrent kernel 3. -/
theorem claim_C4_recurrent_conv_witness :
    (cell1B.conv_hh.padding = 1 ∧
      ∃ out, cell1B.conv_hh.apply (Tensor.zeros [1, 1, 2] 0) = some out ∧
        out.shape = [1, 3, 2]) ∧
    (cell2B.conv_hh.padding = (1, 1) ∧
      ∃ out, cell2B.conv_hh.apply (Tensor.zeros [1, 1, 2, 2] 0) = some out ∧
        out.shape = [1, 3, 2, 2]) := by
  obtain ⟨ho1, hs1, hp1, hpres1⟩ := (claim_C4_recurrent_conv (α := Int)).1
    polOne 0 1 1 1 1 0 3
  obtain ⟨ho2, hs2, hp2, hpres2⟩ := (claim_C4_recurrent_conv (α := Int)).2
    polOne 0 1 1 (IntOrPair.pair 1 1) (IntOrPair.pair 1 1) (IntOrPair.pair 0 0)
    3 3 cell2B rfl
  exact ⟨⟨hp1, hpres1 (by decide) (Tensor.zeros [1, 1, 2] 0) 1 2 rfl rfl
      (by decide)⟩,
    ⟨hp2, hpres2 (by decide) (by decide) (Tensor.zeros [1, 1, 2, 2] 0) 1 2 2 rfl
      rfl (by decide) (by decide)⟩⟩

/-- C5 counterexample: a step call whose supplied hidden state's spatial size
(1, 1) differs from the computed output spatial size (2, 2) completes without
any failure — no shape-mismatch error is surfaced, refuting the claim that
every such call fails. -/
theorem claim_C5_counterexample_broadcast :
    hx2B.shape = [1, 1, 1, 1] ∧
    ((cell2A.forward id id input2A (some hx2B)).getD
      (Tensor.zeros [] 0)).shape = [1, 1, 2, 2] ∧
    (cell2A.forward id id input2A (some hx2B)).isSome = true :=
  ⟨rfl, rfl, rfl⟩

/-- C5 amended: step does not validate the supplied hidden state; when its
spatial size differs from the computed output spatial size on an axis and
neither differing size is 1 (broadcast-incompatible), the call fails inside the
elementwise gate combine with no result — an opaque failure, not a distinct
named shape-mismatch error — while broadcast-compatible mismatches do not fail
at all. -/
theorem claim_C5_mismatch_opaque_failure {α : Type}
    [AddCommMonoid α] [Mul α] [Sub α] [One α] (sigmoid tanh : α → α) :
    (∀ (P : InitPolicy α) (dev ic hc k s p rk b n m : Nat) (input hx : Tensor α),
      0 < s → rk % 2 = 1 → input.shape = [b, ic, n] → input.device = dev →
      k ≤ n + 2 * p → hx.shape = [b, hc, m] → hx.device = dev → 1 ≤ m →
      m ≠ (n + 2 * p - k) / s + 1 → m ≠ 1 → (n + 2 * p - k) / s + 1 ≠ 1 →
      (ConvGRU1DCell.build P dev ic hc k s p rk).forward sigmoid tanh input
        (some hx) = none) ∧
    (∀ (P : InitPolicy α) (dev ic hc : Nat) (ks st pd : IntOrPair) (r0 r1 : Nat)
      (cell : ConvGRU2DCell α) (b m w mh mw : Nat) (input hx : Tensor α),
      ConvGRU2DCell.build P dev ic hc ks st pd (IntOrPair.pair r0 r1) = some cell →
      0 < st.toPair.1 → 0 < st.toPair.2 → r0 % 2 = 1 → r1 % 2 = 1 →
      input.shape = [b, ic, m, w] → input.device = dev →
      ks.toPair.1 ≤ m + 2 * pd.toPair.1 → ks.toPair.2 ≤ w + 2 * pd.toPair.2 →
      hx.shape = [b, hc, mh, mw] → hx.device = dev → 1 ≤ mh → 1 ≤ mw →
      (((m + 2 * pd.toPair.1 - ks.toPair.1) / st.toPair.1 + 1 ≠ mh ∧
        (m + 2 * pd.toPair.1 - ks.toPair.1) / st.toPair.1 + 1 ≠ 1 ∧ mh ≠ 1) ∨
       ((w + 2 * pd.toPair.2 - ks.toPair.2) / st.toPair.2 + 1 ≠ mw ∧
        (w + 2 * pd.toPair.2 - ks.toPair.2) / st.toPair.2 + 1 ≠ 1 ∧ mw ≠ 1)) →
      cell.forward sigmoid tanh input (some hx) = none) := by
  constructor
  · intro P dev ic hc k s p rk b n m input hx hs hodd hsh hdev hk hxs hxd hm
      hne h1 h2
    obtain ⟨ih, hih, hihs, hihd⟩ :=
      conv1d_apply_spec (ConvGRU1DCell.build P dev ic hc k s p rk).conv_ih
        input b n (by rw [build1_ih_in]; exact hsh)
        (by rw [build1_ih_wdev]; exact hdev)
        (by rw [build1_ih_stride]; exact hs)
        (by rw [build1_ih_kernel, build1_ih_padding]; exact hk)
    obtain ⟨hh, hhh, hhhs, hhhd⟩ :=
      conv1d_same_spec (ConvGRU1DCell.build P dev ic hc k s p rk).conv_hh
        hx b m (by rw [build1_hh_in]; exact hxs)
        (by rw [build1_hh_wdev]; exact hxd)
        (build1_hh_stride P dev ic hc k s p rk)
        (by rw [build1_hh_padding, build1_hh_kernel])
        (by rw [build1_hh_kernel]; exact hodd) hm
    exact forward1d_mismatch_none sigmoid tanh _ input hx ih hh b
      ((n + 2 * p - k) / s + 1) m hih hhh
      (by rw [hihs, build1_ih_out, build1_ih_padding, build1_ih_kernel,
          build1_ih_stride, build1_h_channels, Nat.mul_comm hc 3])
      (by rw [hhhs, build1_hh_out, build1_h_channels, Nat.mul_comm hc 3])
      (fun hcon => hne hcon.symm) h2 h1
  · intro P dev ic hc ks st pd r0 r1 cell b m w mh mw input hx hbuild hs1 hs2
      hodd1 hodd2 hsh hdev hk1 hk2 hxs hxd hmh hmw hbad
    obtain ⟨fii, fio, fik, fis, fip, fiw, fhi, fho, fhk, fhs, fhp, fhw, fhc⟩ :=
      build2_fields P dev ic hc ks st pd r0 r1 cell hbuild
    obtain ⟨ih, hih, hihs, hihd⟩ :=
      conv2d_apply_spec cell.conv_ih input b m w
        (by rw [fii]; exact hsh) (by rw [fiw]; exact hdev)
        (by rw [fis]; exact hs1) (by rw [fis]; exact hs2)
        (by rw [fik, fip]; exact hk1) (by rw [fik, fip]; exact hk2)
    obtain ⟨hh, hhh, hhhs, hhhd⟩ :=
      conv2d_same_spec cell.conv_hh hx b mh mw
        (by rw [fhi]; exact hxs) (by rw [fhw]; exact hxd) fhs
        (by rw [fhp, fhk]) (by rw [fhk]; exact hodd1) (by rw [fhk]; exact hodd2)
        hmh hmw
    exact forward2d_mismatch_none sigmoid tanh cell input hx ih hh b
      ((m + 2 * pd.toPair.1 - ks.toPair.1) / st.toPair.1 + 1)
      ((w + 2 * pd.toPair.2 - ks.toPair.2) / st.toPair.2 + 1) mh mw hih hhh
      (by rw [hihs, fio, fik, fip, fis, fhc, Nat.mul_comm hc 3])
      (by rw [hhhs, fho, fhc, Nat.mul_comm hc 3])
      hbad

/-- Witness for the amended C5 at concrete broadcast-incompatible hidden
states (spatial 3 against computed size 2 in 1D; trailing axis 3 against 2 in
2D). -/
theorem claim_C5_mismatch_opaque_failure_witness :
    cell1A.forward id id input1A (some hx1C) = none ∧
    cell2A.forward id id input2A (some hx2C) = none :=
  ⟨(claim_C5_mismatch_opaque_failure (α := Int) id id).1 polOne 0 1 1 1 1 0 1
      1 2 3 input1A hx1C (by decide) (by decide) rfl rfl (by decide) rfl rfl
      (by decide) (by decide) (by decide) (by decide),
    (claim_C5_mismatch_opaque_failure (α := Int) id id).2 polOne 0 1 1
      (IntOrPair.pair 1 1) (IntOrPair.pair 1 1) (IntOrPair.pair 0 0) 1 1 cell2A
      1 2 2 2 3 input2A hx2C rfl (by decide) (by decide) (by decide) (by decide)
      rfl rfl (by decide) (by decide) rfl rfl (by decide) (by decide)
      (Or.inr (by decide))⟩

/-- C6: For every input sequence and optional initial hidden state, the
Sequence component's run produces at every time index t exactly the hidden
state obtained by manually calling the Cell's step iteratively with the
previous step's output; its output sequence has the same time length as the
input sequence, and its final hidden state equals the last element of the
output sequence. (The Sequence component is modelled from the spec, as it is
not present under src/.) -/
theorem claim_C6_run_equals_manual_steps {α : Type}
    [AddCommMonoid α] [Mul α] [Sub α] [One α]
    (sigmoid tanh : α → α) (cell : ConvGRU1DCell α) (seq : List (Tensor α))
    (init0 : Option (Tensor α)) (outs : List (Tensor α)) (fin : Tensor α)
    (h : ConvGRUSequence.run sigmoid tanh cell seq init0 = some (outs, fin)) :
    outs.length = seq.length ∧
    (∀ t (ht : t < outs.length), some (outs.get ⟨t, ht⟩) =
      manualSteps sigmoid tanh cell init0 (seq.take (t + 1))) ∧
    outs.getLast? = some fin :=
  ConvGRUSequence.run_spec sigmoid tanh cell seq init0 outs fin h

/-- Witness for C6 on a concrete two-frame sequence. -/
theorem claim_C6_run_equals_manual_steps_witness :
    ((ConvGRUSequence.run id id cell1A [input1A, input1A] (some hx1A)).getD
      ([], Tensor.zeros [] 0)).1.length = 2 := by
  have h := claim_C6_run_equals_manual_steps (α := Int) id id cell1A
    [input1A, input1A] (some hx1A)
    ((ConvGRUSequence.run id id cell1A [input1A, input1A] (some hx1A)).getD
      ([], Tensor.zeros [] 0)).1
    ((ConvGRUSequence.run id id cell1A [input1A, input1A] (some hx1A)).getD
      ([], Tensor.zeros [] 0)).2
    rfl
  exact h.1

/-- C7: The spec and the constructor's own interface declare that a plain
integer recurrent_kernel_size is accepted by the 2D constructor, but the
construction subscripts the argument before anything else and therefore always
fails on a plain integer — it never allocates the convolutions. -/
theorem claim_C7_int_recurrent_kernel_rejected {α : Type} [Zero α]
    (P : InitPolicy α) (dev ic hc : Nat) (ks st pd : IntOrPair) (r : Nat)
    (hr : 0 < r) :
    ConvGRU2DCell.build P dev ic hc ks st pd (IntOrPair.int r) = none := rfl

/-- Witness for C7 at a concrete positive plain-integer recurrent kernel size. -/
theorem claim_C7_int_recurrent_kernel_rejected_witness :
    ConvGRU2DCell.build polOne 0 8 8 (IntOrPair.int 3) (IntOrPair.int 1)
      (IntOrPair.int 0) (IntOrPair.int 5) = none :=
  claim_C7_int_recurrent_kernel_rejected polOne 0 8 8 (IntOrPair.int 3)
    (IntOrPair.int 1) (IntOrPair.int 0) 5 (by decide)

/-- C8 counterexample: a Cell constructed with the even recurrent kernel size 4
is accepted without any report — both constructors complete, storing padding 2,
and the resulting hidden-to-hidden convolution maps spatial size 2 to 3 instead
of preserving it, so the configuration error was not surfaced at construction. -/
theorem claim_C8_counterexample_even_kernel_accepted :
    cell1E.conv_hh.kernel_size = 4 ∧ cell1E.conv_hh.padding = 2 ∧
    ((cell1E.conv_hh.apply (Tensor.zeros [1, 1, 2] 0)).getD
      (Tensor.zeros [] 0)).shape = [1, 3, 3] ∧
    (ConvGRU2DCell.build polOne 0 1 1 (IntOrPair.pair 1 1) (IntOrPair.pair 1 1)
      (IntOrPair.pair 0 0) (IntOrPair.pair 4 4)).isSome = true :=
  ⟨rfl, rfl, rfl, rfl⟩

/-- C8 amended: construction performs no validation at all — non-positive and
even sizes are never checked by the constructors; in particular every even
(positive) recurrent kernel size is accepted silently, and the stored padding
recurrent_kernel_size / 2 then makes the hidden-to-hidden convolution grow each
spatial size by one instead of preserving it. -/
theorem claim_C8_no_construction_validation {α : Type} [Zero α]
    [AddCommMonoid α] [Mul α] :
    (∀ (P : InitPolicy α) (dev ic hc k s p rk : Nat), rk % 2 = 0 → 0 < rk →
      (ConvGRU1DCell.build P dev ic hc k s p rk).conv_hh.stride = 1 ∧
      (ConvGRU1DCell.build P dev ic hc k s p rk).conv_hh.padding = rk / 2 ∧
      ∀ (hx : Tensor α) (b m : Nat), hx.shape = [b, hc, m] → hx.device = dev →
        ∃ out, (ConvGRU1DCell.build P dev ic hc k s p rk).conv_hh.apply hx =
            some out ∧ out.shape = [b, 3 * hc, m + 1]) ∧
    (∀ (P : InitPolicy α) (dev ic hc : Nat) (ks st pd : IntOrPair) (r0 r1 : Nat),
      r0 % 2 = 0 → 0 < r0 → r1 % 2 = 0 → 0 < r1 →
      ∃ cell, ConvGRU2DCell.build P dev ic hc ks st pd (IntOrPair.pair r0 r1) =
          some cell ∧
        cell.conv_hh.padding = (r0 / 2, r1 / 2) ∧
        ∀ (hx : Tensor α) (b m w : Nat), hx.shape = [b, hc, m, w] →
          hx.device = dev →
          ∃ out, cell.conv_hh.apply hx = some out ∧
            out.shape = [b, 3 * hc, m + 1, w + 1]) := by
  constructor
  · intro P dev ic hc k s p rk heven hpos
    refine ⟨build1_hh_stride P dev ic hc k s p rk,
      build1_hh_padding P dev ic hc k s p rk, ?_⟩
    intro hx b m hsh hdev
    obtain ⟨out, h1, h2, h3⟩ := conv1d_apply_spec
      (ConvGRU1DCell.build P dev ic hc k s p rk).conv_hh hx b m
      (by rw [build1_hh_in]; exact hsh) (by rw [build1_hh_wdev]; exact hdev)
      (by rw [build1_hh_stride]; omega)
      (by rw [build1_hh_kernel, build1_hh_padding]; omega)
    refine ⟨out, h1, ?_⟩
    rw [h2, build1_hh_out, build1_hh_stride, build1_hh_padding,
      build1_hh_kernel, Nat.mul_comm hc 3]
    rw [show (m + 2 * (rk / 2) - rk) / 1 + 1 = m + 1 from by omega]
  · intro P dev ic hc ks st pd r0 r1 heven0 hpos0 heven1 hpos1
    refine ⟨_, rfl, rfl, ?_⟩
    intro hx b m w hsh hdev
    obtain ⟨out, h1, h2, h3⟩ := conv2d_apply_spec
      (ConvGRU2DCell.reset_parameters P
        { conv_ih :=
            { in_channels := ic, out_channels := hc * 3
              kernel_size := ks.toPair, stride := st.toPair
              padding := pd.toPair
              weight := ⟨[hc * 3, ic, ks.toPair.1, ks.toPair.2], dev,
                P.conv_default [hc * 3, ic, ks.toPair.1, ks.toPair.2]⟩
              bias := ⟨[hc * 3], dev, P.conv_default [hc * 3]⟩ }
          conv_hh :=
            { in_channels := hc, out_channels := hc * 3
              kernel_size := (r0, r1), stride := (1, 1)
              padding := (r0 / 2, r1 / 2)
              weight := ⟨[hc * 3, hc, r0, r1], dev,
                P.conv_default [hc * 3, hc, r0, r1]⟩
              bias := ⟨[hc * 3], dev, P.conv_default [hc * 3]⟩ }
          h_channels := hc }).conv_hh hx b m w hsh hdev
      (by exact Nat.one_pos) (by exact Nat.one_pos)
      (by show r0 ≤ m + 2 * (r0 / 2); omega)
      (by show r1 ≤ w + 2 * (r1 / 2); omega)
    refine ⟨out, h1, ?_⟩
    rw [h2]
    show [b, hc * 3, (m + 2 * (r0 / 2) - r0) / 1 + 1,
        (w + 2 * (r1 / 2) - r1) / 1 + 1] = [b, 3 * hc, m + 1, w + 1]
    rw [Nat.mul_comm hc 3,
      show (m + 2 * (r0 / 2) - r0) / 1 + 1 = m + 1 from by omega,
      show (w + 2 * (r1 / 2) - r1) / 1 + 1 = w + 1 from by omega]

/-- Witness for the amended C8 at the concrete even kernel size 4. -/
theorem claim_C8_no_construction_validation_witness :
    ∃ out, cell1E.conv_hh.apply (Tensor.zeros [1, 1, 2] 0) = some out ∧
      out.shape = [1, 3, 3] :=
  ((claim_C8_no_construction_validation (α := Int)).1 polOne 0 1 1 1 1 0 4
    (by decide) (by decide)).2.2 (Tensor.zeros [1, 1, 2] 0) 1 2 rfl rfl

/-- C9: Every invocation of reset_parameters (modelled by state passing for the
in-place mutation, the provider supplying the random draws) sets the
hidden-to-hidden weight via orthogonal initialization, the input-to-hidden
weight via Xavier uniform initialization, zero-fills both biases, and leaves
every other field (channel counts, kernel/stride/padding, tensor shapes and
devices) unchanged; and both constructors apply it at construction, so every
constructed cell is a fixed point of re-invocation. -/
theorem claim_C9_reset_parameters {α : Type} [Zero α] :
    (∀ (P : InitPolicy α) (cell : ConvGRU1DCell α),
      (ConvGRU1DCell.reset_parameters P cell).conv_hh.weight =
        ⟨cell.conv_hh.weight.shape, cell.conv_hh.weight.device,
          P.orthogonal cell.conv_hh.weight.shape⟩ ∧
      (ConvGRU1DCell.reset_parameters P cell).conv_ih.weight =
        ⟨cell.conv_ih.weight.shape, cell.conv_ih.weight.device,
          P.xavier_uniform cell.conv_ih.weight.shape⟩ ∧
      (ConvGRU1DCell.reset_parameters P cell).conv_hh.bias =
        Tensor.zeros cell.conv_hh.bias.shape cell.conv_hh.bias.device ∧
      (ConvGRU1DCell.reset_parameters P cell).conv_ih.bias =
        Tensor.zeros cell.conv_ih.bias.shape cell.conv_ih.bias.device ∧
      (ConvGRU1DCell.reset_parameters P cell).conv_ih.in_channels =
        cell.conv_ih.in_channels ∧
      (ConvGRU1DCell.reset_parameters P cell).conv_ih.out_channels =
        cell.conv_ih.out_channels ∧
      (ConvGRU1DCell.reset_parameters P cell).conv_ih.kernel_size =
        cell.conv_ih.kernel_size ∧
      (ConvGRU1DCell.reset_parameters P cell).conv_ih.stride =
        cell.conv_ih.stride ∧
      (ConvGRU1DCell.reset_parameters P cell).conv_ih.padding =
        cell.conv_ih.padding ∧
      (ConvGRU1DCell.reset_parameters P cell).conv_hh.in_channels =
        cell.conv_hh.in_channels ∧
      (ConvGRU1DCell.reset_parameters P cell).conv_hh.out_channels =
        cell.conv_hh.out_channels ∧
      (ConvGRU1DCell.reset_parameters P cell).conv_hh.kernel_size =
        cell.conv_hh.kernel_size ∧
      (ConvGRU1DCell.reset_parameters P cell).conv_hh.stride =
        cell.conv_hh.stride ∧
      (ConvGRU1DCell.reset_parameters P cell).conv_hh.padding =
        cell.conv_hh.padding ∧
      (ConvGRU1DCell.reset_parameters P cell).h_channels = cell.h_channels) ∧
    (∀ (P : InitPolicy α) (cell : ConvGRU2DCell α),
      (ConvGRU2DCell.reset_parameters P cell).conv_hh.weight =
        ⟨cell.conv_hh.weight.shape, cell.conv_hh.weight.device,
          P.orthogonal cell.conv_hh.weight.shape⟩ ∧
      (ConvGRU2DCell.reset_parameters P cell).conv_ih.weight =
        ⟨cell.conv_ih.weight.shape, cell.conv_ih.weight.device,
          P.xavier_uniform cell.conv_ih.weight.shape⟩ ∧
      (ConvGRU2DCell.reset_parameters P cell).conv_hh.bias =
        Tensor.zeros cell.conv_hh.bias.shape cell.conv_hh.bias.device ∧
      (ConvGRU2DCell.reset_parameters P cell).conv_ih.bias =
        Tensor.zeros cell.conv_ih.bias.shape cell.conv_ih.bias.device ∧
      (ConvGRU2DCell.reset_parameters P cell).conv_ih.in_channels =
        cell.conv_ih.in_channels ∧
      (ConvGRU2DCell.reset_parameters P cell).conv_ih.out_channels =
        cell.conv_ih.out_channels ∧
      (ConvGRU2DCell.reset_parameters P cell).conv_ih.kernel_size =
        cell.conv_ih.kernel_size ∧
      (ConvGRU2DCell.reset_parameters P cell).conv_ih.stride =
        cell.conv_ih.stride ∧
      (ConvGRU2DCell.reset_parameters P cell).conv_ih.padding =
        cell.conv_ih.padding ∧
      (ConvGRU2DCell.reset_parameters P cell).conv_hh.in_channels =
        cell.conv_hh.in_channels ∧
      (ConvGRU2DCell.reset_parameters P cell).conv_hh.out_channels =
        cell.conv_hh.out_channels ∧
      (ConvGRU2DCell.reset_parameters P cell).conv_hh.kernel_size =
        cell.conv_hh.kernel_size ∧
      (ConvGRU2DCell.reset_parameters P cell).conv_hh.stride =
        cell.conv_hh.stride ∧
      (ConvGRU2DCell.reset_parameters P cell).conv_hh.padding =
        cell.conv_hh.padding ∧
      (ConvGRU2DCell.reset_parameters P cell).h_channels = cell.h_channels) ∧
    (∀ (P : InitPolicy α) (dev ic hc k s p rk : Nat),
      ConvGRU1DCell.build P dev ic hc k s p rk =
        ConvGRU1DCell.reset_parameters P (ConvGRU1DCell.build P dev ic hc k s p rk)) ∧
    (∀ (P : InitPolicy α) (dev ic hc : Nat) (ks st pd rks : IntOrPair)
      (cell : ConvGRU2DCell α),
      ConvGRU2DCell.build P dev ic hc ks st pd rks = some cell →
      ConvGRU2DCell.reset_parameters P cell = cell) := by
  refine ⟨?_, ?_, ?_, ?_⟩
  · intro P cell
    exact ⟨rfl, rfl, rfl, rfl, rfl, rfl, rfl, rfl, rfl, rfl, rfl, rfl, rfl,
      rfl, rfl⟩
  · intro P cell
    exact ⟨rfl, rfl, rfl, rfl, rfl, rfl, rfl, rfl, rfl, rfl, rfl, rfl, rfl,
      rfl, rfl⟩
  · intro P dev ic hc k s p rk
    rfl
  · intro P dev ic hc ks st pd rks cell hbuild
    cases rks with
    | int r =>
      exact absurd hbuild (by simp [ConvGRU2DCell.build, IntOrPair.subscript])
    | pair r0 r1 =>
      have hc2 : _ = cell := Option.some.inj hbuild
      subst hc2
      rfl

/-- Witness for C9's constructor fixed-point part at a concrete 2D cell. -/
theorem claim_C9_reset_parameters_witness :
    ConvGRU2DCell.reset_parameters polOne cell2A = cell2A :=
  (claim_C9_reset_parameters (α := Int)).2.2.2 polOne 0 1 1 (IntOrPair.pair 1 1)
    (IntOrPair.pair 1 1) (IntOrPair.pair 0 0) (IntOrPair.pair 1 1) cell2A rfl

/-- C10: A supplied previous hidden state whose spatial size (1) differs from
the computed output spatial size (2) but is broadcast-compatible with it lets
step complete without any failure, returning the tensor obtained by silently
broadcasting the mismatched hidden state inside the gate combines and the
final blend: both output positions read the hidden state's single spatial
position 0. -/
theorem claim_C10_silent_broadcast :
    hx1B.shape = [1, 1, 1] ∧
    (cell1A.forward id id input1A (some hx1B)).isSome = true ∧
    ((cell1A.forward id id input1A (some hx1B)).getD
      (Tensor.zeros [] 0)).shape = [1, 1, 2] ∧
    ((cell1A.forward id id input1A (some hx1B)).getD
      (Tensor.zeros [] 0)).data [0, 0, 0] =
      (1 - (2 + hx1B.data [0, 0, 0])) *
          (2 + (2 + hx1B.data [0, 0, 0]) * hx1B.data [0, 0, 0]) +
        (2 + hx1B.data [0, 0, 0]) * hx1B.data [0, 0, 0] ∧
    ((cell1A.forward id id input1A (some hx1B)).getD
      (Tensor.zeros [] 0)).data [0, 0, 1] =
      (1 - (3 + hx1B.data [0, 0, 0])) *
          (3 + (3 + hx1B.data [0, 0, 0]) * hx1B.data [0, 0, 0]) +
        (3 + hx1B.data [0, 0, 0]) * hx1B.data [0, 0, 0] := by
  refine ⟨rfl, rfl, rfl, by decide, by decide⟩

end ConvGRU
